import Mathlib

/-!
Shallow embedding of the CSV analytics subsystem of the chat application
(`src/services/csvTools.js`, the routing block of `src/components/Chat.js`,
and the retry wrapper of `server/index.js`).

Modelling conventions:
* JavaScript numbers are modelled as exact rationals (`Rat`); IEEE-754
  rounding, `NaN` and `Infinity` are outside the model.  A failed
  `parseFloat` (JS `NaN`) is modelled as `Option.none`.
* A JS object holding row data is an insertion-ordered association list
  `List (String × Cell)`; property update keeps the original position of an
  existing key, as JS objects do.
* JS `Array.prototype.sort` is required to be stable by the language
  specification; it is modelled by a stable insertion sort.
* `Char.isWhitespace` stands in for the JS `\s` class and for the
  whitespace trimmed by `String.prototype.trim`.
-/

namespace ChatApp

/-- A cell of the dataset: JS `string`, `number` or `null`. -/
inductive Cell where
  | str (s : String)
  | num (q : Rat)
  | null
deriving DecidableEq, Repr

/-- A row object: insertion-ordered map from column name to cell value. -/
abbrev Row := List (String × Cell)

/-- JS property read `r[k]`; `none` models `undefined`. -/
def objGet (r : Row) (k : String) : Option Cell :=
  (r.find? (fun p => p.1 == k)).map (fun p => p.2)

/-- JS property write `r[k] = v`: replaces in place when the key exists,
otherwise appends (JS object insertion order). -/
def objSet (r : Row) (k : String) (v : Cell) : Row :=
  if r.any (fun p => p.1 == k) then
    r.map (fun p => if p.1 == k then (p.1, v) else p)
  else
    r ++ [(k, v)]

/-- `Object.keys r`. -/
def rowKeys (r : Row) : List String := r.map (fun p => p.1)

/-- Whitespace as used by JS `trim` and `\s` (modelled by `Char.isWhitespace`). -/
def isJsWs (c : Char) : Bool := c.isWhitespace

/-- `String.prototype.trim` on a character list. -/
def trimChars (cs : List Char) : List Char :=
  ((cs.dropWhile isJsWs).reverse.dropWhile isJsWs).reverse

/-- `String.prototype.trim`. -/
def jsTrim (s : String) : String := String.mk (trimChars s.data)

-- ── parseFloat ────────────────────────────────────────────────────────────────

/-- Numeric value of a digit run. -/
def digitsVal (ds : List Char) : Nat :=
  ds.foldl (fun a c => a * 10 + (c.toNat - 48)) 0

/-- Exponent part of a JS float literal: `(e|E)[+-]?digits`, contributing `0`
when absent or when no digits follow the `e` (JS `parseFloat` then stops
before the `e`). -/
def parseExpPart (cs : List Char) : Int :=
  match cs with
  | [] => 0
  | c :: rest =>
    if c = 'e' ∨ c = 'E' then
      let (sgn, rest2) : Int × List Char :=
        match rest with
        | '+' :: r => (1, r)
        | '-' :: r => (-1, r)
        | r => (1, r)
      let ds := rest2.takeWhile Char.isDigit
      if ds = [] then 0 else sgn * (digitsVal ds : Int)
    else 0

/-- JS `parseFloat` on a character list: leading whitespace, optional sign,
decimal mantissa, optional exponent; `none` models `NaN`.  The `Infinity`
literal is outside the rational model. -/
def parseFloatChars (cs : List Char) : Option Rat :=
  let cs1 := cs.dropWhile isJsWs
  let (sgn, cs2) : Rat × List Char :=
    match cs1 with
    | '-' :: r => (-1, r)
    | '+' :: r => (1, r)
    | r => (1, r)
  let ip := cs2.takeWhile Char.isDigit
  let cs3 := cs2.dropWhile Char.isDigit
  let (fp, cs4) : List Char × List Char :=
    match cs3 with
    | '.' :: r => (r.takeWhile Char.isDigit, r.dropWhile Char.isDigit)
    | r => ([], r)
  if ip = [] ∧ fp = [] then none
  else
    let mant : Rat := (digitsVal ip : Rat) + (digitsVal fp : Rat) / (10 : Rat) ^ fp.length
    some (sgn * mant * (10 : Rat) ^ parseExpPart cs4)

/-- JS `parseFloat` on a string. -/
def jsParseFloat (s : String) : Option Rat := parseFloatChars s.data

/-- `parseFloat(r[col])` where the cell may be a string, number, `null` or
`undefined` (`none`): numbers pass through, `null`/`undefined` stringify to
unparseable text. -/
def cellFloat : Option Cell → Option Rat
  | some (.str s) => jsParseFloat s
  | some (.num q) => some q
  | some .null => none
  | none => none

-- ── parseLine / parseCsvToRows ───────────────────────────────────────────────

/-- Scanner state of `parseLine`: fields already emitted, characters of the
current field, and the quote flag. -/
structure LineState where
  acc : List String
  cur : List Char
  inQuotes : Bool
deriving Repr

/-- One character step of `parseLine`: a quote toggles the flag (and is
dropped), an unquoted comma emits the trimmed current field, anything else is
appended to the current field. -/
def lineStep (st : LineState) (ch : Char) : LineState :=
  if ch = '"' then { st with inQuotes := !st.inQuotes }
  else if ch = ',' ∧ st.inQuotes = false then
    { acc := st.acc ++ [String.mk (trimChars st.cur)], cur := [], inQuotes := st.inQuotes }
  else { st with cur := st.cur ++ [ch] }

/-- `parseLine` on a character list: scan, then emit the trimmed last field. -/
def parseLineChars (cs : List Char) : List String :=
  let st := cs.foldl lineStep ⟨[], [], false⟩
  st.acc ++ [String.mk (trimChars st.cur)]

/-- `parseLine` from `csvTools.js`: split one line on unquoted commas. -/
def parseLine (line : String) : List String := parseLineChars line.data

/-- The regex `replace(/^"|"$/g, '')`: drop one leading and one trailing
double quote. -/
def stripEdgeQuotes (s : String) : String :=
  let cs := s.data
  let cs1 := match cs with
    | '"' :: r => r
    | r => r
  let cs2 := match cs1.reverse with
    | '"' :: r => r.reverse
    | _ => cs1
  String.mk cs2

/-- Result of `parseCsvToRows`. -/
structure ParsedCsv where
  headers : List String
  rows : List Row
deriving DecidableEq, Repr

/-- Build one row object: `headers.forEach((h, i) => obj[h] = (vals[i] || '').replace(/^"|"$/g, ''))`. -/
def buildRow (headers : List String) (vals : List String) : Row :=
  (headers.enum.foldl
    (fun obj hi => objSet obj hi.2 (.str (stripEdgeQuotes ((vals.get? hi.1).getD ""))))
    ([] : Row))

/-- `text.split('\n')` on the character list: split at every newline. -/
def splitNl : List Char → List (List Char)
  | [] => [[]]
  | c :: t =>
    if c = '\n' then [] :: splitNl t
    else
      match splitNl t with
      | g :: gs => (c :: g) :: gs
      | [] => [[c]]

/-- `parseCsvToRows` from `csvTools.js`: split the text on newlines first,
drop blank lines, parse the header line, then parse each data line. -/
def parseCsvToRows (text : String) : ParsedCsv :=
  let lines := ((splitNl text.data).map String.mk).filter (fun l => jsTrim l ≠ "")
  if lines.length < 2 then ⟨[], []⟩
  else
    let headers := (parseLine (lines.headD "")).map stripEdgeQuotes
    let rows := (lines.drop 1).map (fun line => buildRow headers (parseLine line))
    ⟨headers, rows⟩

-- ── Column resolution and math helpers ───────────────────────────────────────

/-- Normalisation used by `resolveCol`: lower-case and delete the characters
of the class `[\s_-]`. -/
def normName (s : String) : String :=
  String.mk ((s.data.map Char.toLower).filter (fun c => ¬(isJsWs c ∨ c = '_' ∨ c = '-')))

/-- `resolveCol` from `csvTools.js`: exact match against the keys of the
first row, else normalised match, else the name unchanged.  The source
returns `keys.find(...) || name`, so a *found* empty-string header — falsy
in JS — still falls back to the unresolved name. -/
def resolveCol (rows : List Row) (name : String) : String :=
  match rows with
  | [] => name
  | r0 :: _ =>
    if name = "" then name
    else
      let keys := rowKeys r0
      if keys.contains name then name
      else
        match keys.find? (fun k => normName k == normName name) with
        | some k => if k = "" then name else k
        | none => name

/-- `numericValues` from `csvTools.js`: the parseable numeric values of a
column, in row order; unparseable cells are dropped. -/
def numericValues (rows : List Row) (col : String) : List Rat :=
  rows.filterMap (fun r => cellFloat (objGet r col))

/-- `median` from `csvTools.js` (expects an ascending-sorted list; an empty
list yields the default `0`, standing for the JS `undefined`/`NaN` case that
callers rule out). -/
def median (sorted : List Rat) : Rat :=
  if sorted.length % 2 = 0 then
    ((sorted.get? (sorted.length / 2 - 1)).getD 0 + (sorted.get? (sorted.length / 2)).getD 0) / 2
  else
    (sorted.get? (sorted.length / 2)).getD 0

/-- `Number.prototype.toFixed f` followed by unary `+`: round half away from
zero is `⌊x·10^f + 1/2⌋ / 10^f` per the ECMAScript `toFixed` algorithm
("pick the larger n"). -/
def toFixedNum (f : Nat) (q : Rat) : Rat :=
  ((⌊q * (10 : Rat) ^ f + 1/2⌋ : Int) : Rat) / (10 : Rat) ^ f

/-- `fmt` from `csvTools.js`: `+n.toFixed(4)`. -/
def fmt (q : Rat) : Rat := toFixedNum 4 q

/-- Stable ascending insertion for rationals (model of a stable JS sort with
comparator `(a, b) => a - b`). -/
def insertAsc (x : Rat) : List Rat → List Rat
  | [] => [x]
  | y :: ys => if x ≤ y then x :: y :: ys else y :: insertAsc x ys

/-- `[...vals].sort((a, b) => a - b)`. -/
def sortAsc (l : List Rat) : List Rat := l.foldr insertAsc []

/-- `Math.min(...vals)` (callers guarantee nonempty; default `0` stands for
the JS `Infinity` of the empty spread). -/
def listMin (l : List Rat) : Rat :=
  match l with
  | [] => 0
  | x :: xs => xs.foldl min x

/-- `Math.max(...vals)`. -/
def listMax (l : List Rat) : Rat :=
  match l with
  | [] => 0
  | x :: xs => xs.foldl max x

-- ── Regex predicates used for column auto-detection ──────────────────────────

/-- Substring test on character lists. -/
def listContains (hay pat : List Char) : Bool :=
  pat.isPrefixOf hay ||
    match hay with
    | [] => false
    | _ :: t => listContains t pat

/-- Match `p1` then an optional single non-line-terminator then `p2` at the
head of `cs` (the `x.?y` regex shape). -/
def dotSepAt (p1 p2 : List Char) (cs : List Char) : Bool :=
  p1.isPrefixOf cs &&
    (let rest := cs.drop p1.length
     p2.isPrefixOf rest ||
       match rest with
       | c :: r2 => !(c == '\n' || c == '\r') && p2.isPrefixOf r2
       | [] => false)

/-- Search `dotSepAt p1 p2` at every position (unanchored regex test). -/
def dotSepAnywhere (p1 p2 : List Char) (cs : List Char) : Bool :=
  dotSepAt p1 p2 cs ||
    match cs with
    | [] => false
    | _ :: t => dotSepAnywhere p1 p2 t

/-- Lower-cased character list of a string. -/
def lowerChars (s : String) : List Char := s.data.map Char.toLower

/-- `/favorite.?count/i.test h`. -/
def reFavoriteCount (h : String) : Bool :=
  dotSepAnywhere "favorite".data "count".data (lowerChars h)

/-- `/view.?count/i.test h`. -/
def reViewCount (h : String) : Bool :=
  dotSepAnywhere "view".data "count".data (lowerChars h)

/-- `/^likes?$/i.test h`. -/
def reLikes (h : String) : Bool :=
  lowerChars h == "like".data || lowerChars h == "likes".data

/-- `/^views?$/i.test h`. -/
def reViews (h : String) : Bool :=
  lowerChars h == "view".data || lowerChars h == "views".data

-- ── enrichWithEngagement ─────────────────────────────────────────────────────

/-- Result of `enrichWithEngagement`. -/
structure Enriched where
  rows : List Row
  headers : List String
deriving DecidableEq, Repr

/-- The engagement cell of one row: `fav / view` to 6 decimal places when
both parse and the view count is positive, else `null`. -/
def engagementCell (favCol viewCol : String) (r : Row) : Cell :=
  match cellFloat (objGet r favCol), cellFloat (objGet r viewCol) with
  | some fav, some view => if view > 0 then .num (toFixedNum 6 (fav / view)) else .null
  | _, _ => .null

/-- `enrichWithEngagement` from `csvTools.js`: detect favorite- and view-like
columns, then append an `engagement` column unless one already exists. -/
def enrichWithEngagement (rows : List Row) (headers : List String) : Enriched :=
  if rows = [] then ⟨rows, headers⟩
  else
    let favCol := (headers.find? reFavoriteCount).orElse (fun _ => headers.find? reLikes)
    let viewCol := (headers.find? reViewCount).orElse (fun _ => headers.find? reViews)
    match favCol, viewCol with
    | some fc, some vc =>
      if headers.contains "engagement" then ⟨rows, headers⟩
      else
        ⟨rows.map (fun r => objSet r "engagement" (engagementCell fc vc r)),
         headers ++ ["engagement"]⟩
    | _, _ => ⟨rows, headers⟩

-- ── JS value-to-string coercion and object key order ─────────────────────────

/-- Smallest decimal shift that makes `q` an integer, when one exists
within 30 digits. -/
def decShift (q : Rat) : Option Nat :=
  (List.range 31).find? (fun k => (q * (10 : Rat) ^ k).den = 1)

/-- `String(number)` for the rationals of the model: the exact shortest
decimal expansion when the denominator divides a power of ten; other
rationals (which have no finite decimal form and thus no float counterpart
in the model) fall back to a fraction spelling. -/
def ratToJsString (q : Rat) : String :=
  match decShift q with
  | some k =>
    let m := (q * (10 : Rat) ^ k).num
    let sgn := if m < 0 then "-" else ""
    let a := m.natAbs
    if k = 0 then sgn ++ toString a
    else
      let fpStr := toString (a % 10 ^ k)
      sgn ++ toString (a / 10 ^ k) ++ "." ++
        String.mk (List.replicate (k - fpStr.length) '0') ++ fpStr
  | none => toString q.num ++ "/" ++ toString q.den

/-- JS property-key coercion of a cell value. -/
def jsKeyString : Cell → String
  | .str s => s
  | .num q => ratToJsString q
  | .null => "null"

/-- JS truthiness of a possibly-`undefined` cell. -/
def cellTruthy : Option Cell → Bool
  | some (.str s) => s != ""
  | some (.num q) => q != 0
  | some .null => false
  | none => false

/-- `String(v || '')`: empty for falsy values, JS string coercion otherwise. -/
def jsOrEmptyString : Option Cell → String
  | some (.str s) => s
  | some (.num q) => if q = 0 then "" else ratToJsString q
  | some .null => ""
  | none => ""

/-- A canonical array-index key: the decimal spelling of an integer below
`2^32 - 1` with no leading zero.  JS objects enumerate these keys first, in
ascending numeric order. -/
def isArrayIndexKey (s : String) : Bool :=
  match s.data with
  | [] => false
  | ds => ds.all Char.isDigit && (ds == ['0'] || !(ds.head? == some '0')) && decide (digitsVal ds < 2 ^ 32 - 1)

/-- `counts[k] = (counts[k] || 0) + 1` on the insertion-ordered object. -/
def bumpCount (m : List (String × Nat)) (k : String) : List (String × Nat) :=
  if m.any (fun p => p.1 == k) then
    m.map (fun p => if p.1 == k then (p.1, p.2 + 1) else p)
  else m ++ [(k, 1)]

/-- Stable ascending insertion by numeric key value (array-index keys are
pairwise distinct, so ties cannot arise). -/
def insertIdxAsc (x : String × Nat) : List (String × Nat) → List (String × Nat)
  | [] => [x]
  | y :: ys =>
    if digitsVal x.1.data ≤ digitsVal y.1.data then x :: y :: ys else y :: insertIdxAsc x ys

/-- Sort array-index entries ascending by numeric value. -/
def sortIdxAsc (l : List (String × Nat)) : List (String × Nat) := l.foldr insertIdxAsc []

/-- `Object.entries`: canonical array-index keys first in ascending numeric
order, then the remaining string keys in insertion order. -/
def jsEntries (m : List (String × Nat)) : List (String × Nat) :=
  sortIdxAsc (m.filter (fun p => isArrayIndexKey p.1)) ++
    m.filter (fun p => ¬ isArrayIndexKey p.1)

/-- Stable descending insertion by count (model of the stable JS sort with
comparator `(a, b) => b[1] - a[1]`). -/
def insertCountDesc (x : String × Nat) : List (String × Nat) → List (String × Nat)
  | [] => [x]
  | y :: ys => if x.2 ≥ y.2 then x :: y :: ys else y :: insertCountDesc x ys

/-- `.sort((a, b) => b[1] - a[1])` — stable, descending by count. -/
def sortCountDesc (l : List (String × Nat)) : List (String × Nat) := l.foldr insertCountDesc []

/-- `Object.fromEntries` then later enumeration of the fresh object: keys are
set in list order and read back in JS object key order. -/
def jsFromEntries (l : List (String × Nat)) : List (String × Nat) :=
  jsEntries (l.foldl (fun m kv =>
    if m.any (fun p => p.1 == kv.1) then
      m.map (fun p => if p.1 == kv.1 then (p.1, kv.2) else p)
    else m ++ [kv]) [])

/-- `.slice(0, n)` for a possibly-negative JS end index. -/
def jsSlice0 (n : Int) (l : List α) : List α :=
  if 0 ≤ n then l.take n.toNat else l.take (l.length - n.natAbs)

/-- The counts object built by `get_value_counts`: skip `undefined` and the
empty string, count everything else under its JS key string. -/
def buildCounts (rows : List Row) (col : String) : List (String × Nat) :=
  rows.foldl (fun m r =>
    match objGet r col with
    | none => m
    | some (.str "") => m
    | some c => bumpCount m (jsKeyString c)) []

/-- The categorical top-5 table of `computeDatasetSummary`
(`csvTools.js` lines 326–333): values with `''`/`undefined`/`null` dropped,
counted, entries sorted descending by count, first five kept. -/
def categoricalTop (rows : List Row) (h : String) : List (String × Nat) :=
  let vals := rows.filterMap (fun r =>
    match objGet r h with
    | none => none
    | some (.str "") => none
    | some .null => none
    | some c => some c)
  let counts := vals.foldl (fun m c => bumpCount m (jsKeyString c)) []
  (sortCountDesc (jsEntries counts)).take 5

-- ── executeTool (synchronous analytic operations) ────────────────────────────

/-- Argument mapping of a tool call (unused entries keep their defaults). -/
structure ToolArgs where
  column : String := ""
  top_n : Option Int := none
  sort_column : String := ""
  n : Option Int := none
  ascending : Option Bool := none
  field : String := ""
  metric_column : String := ""
  date_column : String := ""
deriving Repr

/-- Result of `compute_column_stats` / `compute_stats_json`.  The JS object
carries `std = fmt (Math.sqrt variance)`; the square root is irrational over
`Rat`, so the record keeps the radicand `variance` (`std = √variance` up to
the 4-decimal rounding). -/
structure ColumnStats where
  label : String
  count : Nat
  mean : Rat
  median : Rat
  variance : Rat
  min : Rat
  max : Rat
deriving DecidableEq, Repr

/-- One entry of the `tweets` array built by `get_top_tweets`; the dynamic
`[favCol]`/`[viewCol]` properties are kept as (column, value) pairs. -/
structure TweetOut where
  rank : Nat
  text : Option String := none
  fav : Option (String × Option Cell) := none
  view : Option (String × Option Cell) := none
  engagement : Option (Option Cell) := none
deriving DecidableEq, Repr

/-- One point of the `plot_metric_vs_time` chart payload. -/
structure ChartPoint where
  date : Cell
  value : Rat
  label : String
deriving DecidableEq, Repr

/-- Environment for the JS `Date` operations of `plot_metric_vs_time`:
`parse` models `new Date(v).getTime()` (`none` = invalid date) and `format`
models `toLocaleDateString`; both are implementation- and locale-dependent
in JS and therefore kept abstract. -/
structure DateEnv where
  parse : Cell → Option Int
  format : Int → String

/-- Result mapping of a synchronous `executeTool` call. -/
inductive ToolResult where
  | error (msg : String)
  | columnStats (s : ColumnStats)
  | fieldStats (s : ColumnStats)
  | valueCounts (column : String) (total_rows : Nat) (value_counts : List (String × Nat))
  | topTweets (sort_column : String) (direction : String) (count : Nat) (tweets : List TweetOut)
  | chart (data : List ChartPoint) (metricColumn dateColumn : String)
  | external (tool : String)
deriving DecidableEq, Repr

/-- Sum of a list of rationals (`vals.reduce((a, b) => a + b, 0)`). -/
def sumList (l : List Rat) : Rat := l.foldl (fun a b => a + b) 0

/-- Shared body of `compute_column_stats` and `compute_stats_json` once the
column is resolved and the values are known to be nonempty. -/
def statsOf (label : String) (vals : List Rat) : ColumnStats :=
  let mean := sumList vals / (vals.length : Rat)
  let sorted := sortAsc vals
  let variance := (vals.foldl (fun a b => a + (b - mean) ^ 2) 0) / (vals.length : Rat)
  { label := label
    count := vals.length
    mean := fmt mean
    median := fmt (median sorted)
    variance := variance
    min := listMin vals
    max := listMax vals }

/-- `availableHeaders.join(', ')`. -/
def joinHeaders (headers : List String) : String := String.intercalate ", " headers

/-- Comparator value of the `get_top_tweets` sort: numeric difference when
both sides parse, `0` (no reordering) otherwise. -/
def rowCmp (sortCol : String) (asc : Bool) (a b : Row) : Rat :=
  match cellFloat (objGet a sortCol), cellFloat (objGet b sortCol) with
  | some av, some bv => if asc then av - bv else bv - av
  | _, _ => 0

/-- Stable insertion for the row sort (stable JS sort: an element precedes
another iff the comparator orders it strictly earlier or keeps the tie). -/
def insertRowBy (c : Row → Row → Rat) (x : Row) : List Row → List Row
  | [] => [x]
  | y :: ys => if c x y ≤ 0 then x :: y :: ys else y :: insertRowBy c x ys

/-- `[...safeRows].sort(comparator)` as a stable sort. -/
def jsSortRows (c : Row → Row → Rat) (l : List Row) : List Row :=
  l.foldr (insertRowBy c) []

/-- One output row of `get_top_tweets`. -/
def tweetOutOf (textCol favCol viewCol : Option String) (engCol : Bool)
    (i : Nat) (r : Row) : TweetOut :=
  { rank := i + 1
    text := textCol.map (fun tc => String.mk ((jsOrEmptyString (objGet r tc)).data.take 150))
    fav := favCol.map (fun fc => (fc, objGet r fc))
    view := viewCol.map (fun vc => (vc, objGet r vc))
    engagement := if engCol then some (objGet r "engagement") else none }

/-- `/^text$/i` then `/text|content|tweet|body/i` fallback. -/
def findTextCol (headers : List String) : Option String :=
  (headers.find? (fun h => lowerChars h == "text".data)).orElse (fun _ =>
    headers.find? (fun h =>
      listContains (lowerChars h) "text".data || listContains (lowerChars h) "content".data ||
      listContains (lowerChars h) "tweet".data || listContains (lowerChars h) "body".data))

/-- `args.top_n || 10` / `args.n || 10` (`0` is falsy). -/
def orTen : Option Int → Int
  | some t => if t = 0 then 10 else t
  | none => 10

/-- Stable ascending insertion by parsed timestamp (`(a, b) => a.parsed - b.parsed`). -/
def insertChartAsc (x : Cell × Int × Rat) : List (Cell × Int × Rat) → List (Cell × Int × Rat)
  | [] => [x]
  | y :: ys => if x.2.1 ≤ y.2.1 then x :: y :: ys else y :: insertChartAsc x ys

/-- `vals.sort((a, b) => a.parsed - b.parsed)` as a stable sort. -/
def sortChartAsc (l : List (Cell × Int × Rat)) : List (Cell × Int × Rat) :=
  l.foldr insertChartAsc []

/-- `Object.keys(firstRow)` (empty when there is no row). -/
def availableHeadersOf (rows : List Row) : List String :=
  match rows with
  | [] => []
  | r0 :: _ => rowKeys r0

/-- The `compute_column_stats` branch of `executeTool`. -/
def computeColumnStatsTool (safeRows : List Row) (column : String) : ToolResult :=
  let col := resolveCol safeRows column
  let vals := numericValues safeRows col
  if vals = [] then
    .error ("No numeric values found in column \"" ++ col ++ "\". Available columns: " ++
      joinHeaders (availableHeadersOf safeRows))
  else .columnStats (statsOf col vals)

/-- The `get_value_counts` branch of `executeTool`. -/
def getValueCountsTool (safeRows : List Row) (column : String) (top_n : Option Int) : ToolResult :=
  let col := resolveCol safeRows column
  let sorted := jsSlice0 (orTen top_n) (sortCountDesc (jsEntries (buildCounts safeRows col)))
  .valueCounts col safeRows.length (jsFromEntries sorted)

/-- The `get_top_tweets` branch of `executeTool`. -/
def getTopTweetsTool (safeRows : List Row) (sort_column : String)
    (n : Option Int) (ascending : Option Bool) : ToolResult :=
  let headers := availableHeadersOf safeRows
  let sortCol := resolveCol safeRows sort_column
  let asc := ascending.getD false
  let textCol := findTextCol headers
  let favCol := headers.find? reFavoriteCount
  let viewCol := headers.find? reViewCount
  let engCol := headers.contains "engagement"
  let sorted := jsSortRows (rowCmp sortCol asc) safeRows
  let topRows := (jsSlice0 (orTen n) sorted).enum.map
    (fun ir => tweetOutOf textCol favCol viewCol engCol ir.1 ir.2)
  if topRows = [] then
    .error ("No rows found. Column \"" ++ sortCol ++ "\" may not exist. Available: " ++
      joinHeaders headers)
  else
    .topTweets sortCol
      (if asc then "ascending (lowest first)" else "descending (highest first)")
      topRows.length topRows

/-- One row of the `plot_metric_vs_time` extraction: `null` when the date
cell is falsy, the metric fails to parse, or the date fails to parse. -/
def plotRowPoint (env : DateEnv) (metricCol dateCol : String) (r : Row) :
    Option (Cell × Int × Rat) :=
  let dateVal := objGet r dateCol
  if ¬ cellTruthy dateVal then none
  else match cellFloat (objGet r metricCol) with
    | none => none
    | some numVal =>
      match env.parse (dateVal.getD .null) with
      | none => none
      | some t => some (dateVal.getD .null, t, numVal)

/-- The `plot_metric_vs_time` branch of `executeTool`. -/
def plotMetricVsTimeTool (env : DateEnv) (safeRows : List Row)
    (metric_column date_column : String) : ToolResult :=
  if safeRows = [] then
    .error "No channel data loaded. Please drag and drop a JSON file with your YouTube channel data first, then ask to plot."
  else
    let metricCol := resolveCol safeRows metric_column
    let dateCol := resolveCol safeRows date_column
    let vals := safeRows.filterMap (plotRowPoint env metricCol dateCol)
    if vals = [] then
      .error ("No valid date+metric pairs. Check columns \"" ++ metricCol ++ "\" and \"" ++
        dateCol ++ "\". Available: " ++ joinHeaders (availableHeadersOf safeRows))
    else
      .chart ((sortChartAsc vals).map (fun v => ⟨v.1, v.2.2, env.format v.2.1⟩))
        metricCol dateCol

/-- The `compute_stats_json` branch of `executeTool`. -/
def computeStatsJsonTool (safeRows : List Row) (field : String) : ToolResult :=
  let fld := resolveCol safeRows field
  let vals := numericValues safeRows fld
  if vals = [] then
    .error ("No numeric values in field \"" ++ fld ++ "\". Available: " ++
      joinHeaders (availableHeadersOf safeRows))
  else .fieldStats (statsOf fld vals)

/-- The synchronous part of `executeTool` from `csvTools.js`.  `rows?` is
`none` when the JS caller passed a non-array value (normalised to `[]`).
`play_video` and `generateImage` perform DOM/network effects and are kept
opaque (`external`); every other name falls to the default branch. -/
def executeTool (env : DateEnv) (toolName : String) (args : ToolArgs)
    (rows? : Option (List Row)) : ToolResult :=
  let safeRows := rows?.getD []
  if toolName = "compute_column_stats" then
    computeColumnStatsTool safeRows args.column
  else if toolName = "get_value_counts" then
    getValueCountsTool safeRows args.column args.top_n
  else if toolName = "get_top_tweets" then
    getTopTweetsTool safeRows args.sort_column args.n args.ascending
  else if toolName = "plot_metric_vs_time" then
    plotMetricVsTimeTool env safeRows args.metric_column args.date_column
  else if toolName = "compute_stats_json" then
    computeStatsJsonTool safeRows args.field
  else if toolName = "play_video" ∨ toolName = "generateImage" then
    .external toolName
  else
    .error ("Unknown tool: " ++ toolName)

-- ── Routing intent (Chat.js handleSend, lines 776–805) ───────────────────────

/-- The text/state predicates the routing block of `handleSend` evaluates
(each field is the boolean value of one regex test or state check of the
source; the decision is a pure boolean function of them). -/
structure RoutingInputs where
  /-- `PYTHON_ONLY_KEYWORDS.test text` -/
  wantPythonOnly : Bool
  /-- `CODE_KEYWORDS.test text` -/
  codeKeywords : Bool
  /-- `!!sessionCsvRows` -/
  hasSessionRows : Bool
  /-- `!!capturedCsv` -/
  capturedCsv : Bool
  /-- the image-generation request pattern -/
  wantImageGen : Bool
  /-- the image-noun pattern -/
  mentionsImage : Bool
  /-- the plot-request pattern -/
  wantPlot : Bool
  /-- `images.length > 0` -/
  hasImages : Bool
  /-- last model message text matches the image-failure pattern -/
  lastWasImageError : Bool
  /-- short retry-like utterance -/
  isRetryShort : Bool
  /-- the image action-verb pattern -/
  imageActionVerb : Bool

/-- The decision triple computed by the routing block. -/
structure RoutingDecision where
  forceToolsForImage : Bool
  useTools : Bool
  useCodeExecution : Bool
deriving DecidableEq, Repr

/-- The routing block of `handleSend`, transcribed clause for clause. -/
def routeIntent (i : RoutingInputs) : RoutingDecision :=
  let wantCode := i.codeKeywords && !i.hasSessionRows
  let hasData := i.hasSessionRows
  let retryImageContext := i.isRetryShort && i.lastWasImageError
  let forceToolsForImage :=
    i.wantImageGen || i.hasImages || retryImageContext ||
      (i.mentionsImage && i.imageActionVerb)
  let useTools :=
    forceToolsForImage ||
      ((!i.wantPythonOnly && (!wantCode || i.mentionsImage || i.wantPlot) &&
          (!i.capturedCsv || i.wantImageGen || i.hasImages)) &&
        (hasData || i.wantPlot))
  let useCodeExecution :=
    !forceToolsForImage &&
      (i.wantPythonOnly || (wantCode && i.hasSessionRows && !i.mentionsImage && !i.wantPlot))
  ⟨forceToolsForImage, useTools, useCodeExecution⟩

-- ── replicateRunWithRetry (server/index.js, lines 111–135) ───────────────────

/-- A JS error as observed by the retry wrapper: its message and the
`retry-after` header of the attached response, when any. -/
structure JsError where
  message : String
  retryAfter : Option String := none
deriving DecidableEq, Repr

/-- `/429|too many requests|rate limit|throttl/i.test msg`. -/
def is429 (e : JsError) : Bool :=
  let lower := lowerChars e.message
  listContains lower "429".data || listContains lower "too many requests".data ||
    listContains lower "rate limit".data || listContains lower "throttl".data

/-- JS `parseInt(s, 10)`: leading whitespace, optional sign, leading digit
run; `none` models `NaN`. -/
def jsParseInt (s : String) : Option Int :=
  let cs := s.data.dropWhile isJsWs
  let (sgn, cs2) : Int × List Char :=
    match cs with
    | '-' :: r => (-1, r)
    | '+' :: r => (1, r)
    | r => (1, r)
  let ds := cs2.takeWhile Char.isDigit
  if ds = [] then none else some (sgn * (digitsVal ds : Int))

/-- One-or-more whitespace characters (`\s+`), returning the remainder. -/
def wsPlus (t : List Char) : Option (List Char) :=
  match t with
  | c :: r => if isJsWs c then some (r.dropWhile isJsWs) else none
  | [] => none

/-- After `reset[s]?`: match `\s+in\s+~?(\d+)` and return the digits. -/
def matchInNum (t : List Char) : Option Nat :=
  (wsPlus t).bind fun t1 =>
    if "in".data.isPrefixOf t1 then
      (wsPlus (t1.drop 2)).bind fun t2 =>
        let t3 := match t2 with
          | '~' :: r => r
          | r => r
        let ds := t3.takeWhile Char.isDigit
        if ds = [] then none else some (digitsVal ds)
    else none

/-- Match `/resets?\s+in\s+~?(\d+)/` at the head of the (lower-cased) text. -/
def matchResetsAt (cs : List Char) : Option Nat :=
  if "reset".data.isPrefixOf cs then
    let r1 := cs.drop 5
    (match r1 with
      | 's' :: t => matchInNum t
      | _ => none).orElse (fun _ => matchInNum r1)
  else none

/-- Match `/~(\d+)\s*s/` at the head of the (lower-cased) text. -/
def matchTildeAt (cs : List Char) : Option Nat :=
  match cs with
  | '~' :: r =>
    let ds := r.takeWhile Char.isDigit
    if ds = [] then none
    else
      match (r.drop ds.length).dropWhile isJsWs with
      | 's' :: _ => some (digitsVal ds)
      | _ => none
  | _ => none

/-- Leftmost match of a head-anchored matcher (JS `String.prototype.match`). -/
def scanFirst (f : List Char → Option Nat) (cs : List Char) : Option Nat :=
  match f cs with
  | some n => some n
  | none =>
    match cs with
    | [] => none
    | _ :: t => scanFirst f t

/-- The `waitMs` computation of `replicateRunWithRetry`: `retry-after` header
first (clamped), else a "resets in N" / "~Ns" hint plus two seconds
(clamped), else fifteen seconds. -/
def waitMsFor (e : JsError) : Int :=
  match e.retryAfter with
  | some hdr =>
    if hdr ≠ "" then
      match jsParseInt hdr with
      | some sec => min (sec * 1000) 60000
      | none => 15000
    else hintWaitMs e.message
  | none => hintWaitMs e.message
where
  /-- The message-hint fallback of the `waitMs` computation. -/
  hintWaitMs (msg : String) : Int :=
    match scanFirst matchResetsAt (lowerChars msg) with
    | some n => min ((n : Int) * 1000 + 2000) 60000
    | none =>
      match scanFirst matchTildeAt (lowerChars msg) with
      | some n => min ((n : Int) * 1000 + 2000) 60000
      | none => 15000

/-- The outcome of a retry run: the propagated result, the number of
invocations of the wrapped call, and the waits slept between attempts. -/
structure RetryTrace (α : Type) where
  result : Except JsError α
  attempts : Nat
  waits : List Int
deriving Repr

/-- The loop of `replicateRunWithRetry` at attempt number `attempt` with
`left = maxRetries - attempt` retries remaining (so `0 < left` is exactly the
source's `attempt < maxRetries`): return on success; on a rate-limit failure
before the final attempt, sleep the computed wait and try again; otherwise
rethrow the error unchanged.  `f i` is the outcome of the `i`-th invocation
of `replicate.run`. -/
def runRetryFrom (f : Nat → Except JsError α) (attempt : Nat) : Nat → RetryTrace α
  | 0 =>
    match f attempt with
    | .ok a => ⟨.ok a, 1, []⟩
    | .error e => ⟨.error e, 1, []⟩
  | left + 1 =>
    match f attempt with
    | .ok a => ⟨.ok a, 1, []⟩
    | .error e =>
      if is429 e then
        let rest := runRetryFrom f (attempt + 1) left
        ⟨rest.result, rest.attempts + 1, waitMsFor e :: rest.waits⟩
      else ⟨.error e, 1, []⟩

/-- `replicateRunWithRetry(replicate, modelId, input, maxRetries)`. -/
def replicateRunWithRetry (f : Nat → Except JsError α) (maxRetries : Nat) : RetryTrace α :=
  runRetryFrom f 0 maxRetries

/-- The default of the `maxRetries` parameter. -/
def defaultMaxRetries : Nat := 3

/-- A concrete date environment (every date invalid) for closed statements. -/
def trivialDateEnv : DateEnv := ⟨fun _ => none, fun _ => ""⟩

/-- Whether a tool result is an error mapping. -/
def isErrorResult : ToolResult → Bool
  | .error _ => true
  | _ => false

end ChatApp

namespace ChatApp

-- ── C2: routing-intent exclusivity ───────────────────────────────────────────

/-- **C2** (confirmed).  For every valuation of the routing predicates —
hence for every utterance, dataset state, and attachment state — the intent
classifier's decision pair is mutually exclusive (`useTools` and
`useCodeExecution` are never both true), and whenever the forced-image
condition holds, `useTools` is true and `useCodeExecution` is false. -/
theorem routing_pair_exclusive_and_forced :
    ∀ a b c d e f g h i j k : Bool,
      ¬((routeIntent ⟨a, b, c, d, e, f, g, h, i, j, k⟩).useTools = true ∧
          (routeIntent ⟨a, b, c, d, e, f, g, h, i, j, k⟩).useCodeExecution = true) ∧
        ((routeIntent ⟨a, b, c, d, e, f, g, h, i, j, k⟩).forceToolsForImage = true →
          (routeIntent ⟨a, b, c, d, e, f, g, h, i, j, k⟩).useTools = true ∧
            (routeIntent ⟨a, b, c, d, e, f, g, h, i, j, k⟩).useCodeExecution = false) := by
  decide

/-- Closed instance of `routing_pair_exclusive_and_forced`: an image-request
turn (forced condition holds) routes to tools and not to code execution. -/
theorem routing_pair_exclusive_and_forced_witness :
    (routeIntent ⟨false, false, true, false, true, true, false, false, false, false,
        true⟩).useTools = true ∧
      (routeIntent ⟨false, false, true, false, true, true, false, false, false, false,
          true⟩).useCodeExecution = false :=
  (routing_pair_exclusive_and_forced false false true false true true false false false false
      true).2 (by decide)

-- ── C9: executeTool totality, default branch, input normalisation ────────────

/-- **C9** (confirmed).  The synchronous `executeTool` is a total function
into result-or-error mappings; a tool name outside the registry lands in the
default branch and yields the error mapping `Unknown tool: <name>` (it never
throws), and a non-array `rows` input is normalised to the empty array, so
the call behaves exactly as with `[]`. -/
theorem executeTool_default_and_normalisation :
    ∀ (env : DateEnv) (args : ToolArgs) (rows? : Option (List Row)) (name : String),
      (name ∉ ["compute_column_stats", "get_value_counts", "get_top_tweets",
          "plot_metric_vs_time", "play_video", "compute_stats_json", "generateImage"] →
        executeTool env name args rows? = .error ("Unknown tool: " ++ name)) ∧
        executeTool env name args none = executeTool env name args (some []) := by
  intro env args rows? name
  constructor
  · intro hname
    simp only [List.mem_cons, List.not_mem_nil, or_false, not_or] at hname
    obtain ⟨h1, h2, h3, h4, h5, h6, h7⟩ := hname
    simp [executeTool, h1, h2, h3, h4, h5, h6, h7]
  · rfl

/-- Closed instance of `executeTool_default_and_normalisation` at the
unregistered name `frobnicate`. -/
theorem executeTool_default_witness :
    executeTool trivialDateEnv "frobnicate" {} none = .error ("Unknown tool: " ++ "frobnicate") :=
  (executeTool_default_and_normalisation trivialDateEnv {} none "frobnicate").1 (by decide)

-- ── C6: idempotence of enrichment ────────────────────────────────────────────

/-- **C6** (confirmed).  When an `engagement` column already exists in the
header list, `enrichWithEngagement` returns its input unchanged; hence
applying it twice yields exactly the headers and rows of applying it once. -/
theorem enrich_idempotent_of_engagement (rows : List Row) (headers : List String)
    (h : headers.contains "engagement" = true) :
    enrichWithEngagement rows headers = ⟨rows, headers⟩ ∧
      enrichWithEngagement (enrichWithEngagement rows headers).rows
          (enrichWithEngagement rows headers).headers =
        enrichWithEngagement rows headers := by
  have h1 : enrichWithEngagement rows headers = ⟨rows, headers⟩ := by
    unfold enrichWithEngagement
    split
    · rfl
    · dsimp only
      split
      · simp [h]
      · rfl
  refine ⟨h1, ?_⟩
  rw [h1]
  exact h1

/-- Closed instance of `enrich_idempotent_of_engagement`: a dataset whose
headers already carry `engagement` is returned untouched. -/
theorem enrich_idempotent_witness :
    (["Favorite Count", "View Count", "engagement"].contains "engagement" = true) ∧
      enrichWithEngagement [[("Favorite Count", Cell.str "3")]]
          ["Favorite Count", "View Count", "engagement"] =
        ⟨[[("Favorite Count", Cell.str "3")]], ["Favorite Count", "View Count", "engagement"]⟩ :=
  ⟨by decide,
    (enrich_idempotent_of_engagement [[("Favorite Count", Cell.str "3")]]
        ["Favorite Count", "View Count", "engagement"] (by decide)).1⟩

-- ── C4: retry wrapper ────────────────────────────────────────────────────────

/-- The attempt count of the retry loop is bounded by the remaining fuel
plus one. -/
theorem runRetryFrom_attempts_le (f : Nat → Except JsError α) :
    ∀ left attempt, (runRetryFrom f attempt left).attempts ≤ left + 1 := by
  intro left
  induction left with
  | zero =>
    intro attempt
    unfold runRetryFrom
    cases f attempt <;> simp
  | succ n ih =>
    intro attempt
    unfold runRetryFrom
    cases f attempt with
    | ok a => simp
    | error e =>
      by_cases h : is429 e = true
      · simpa [h] using Nat.succ_le_succ (ih (attempt + 1))
      · simp [h]

/-- When every attempt before the last fails with a rate-limit error and the
last fails too, the loop runs all attempts and rethrows the final error. -/
theorem runRetryFrom_exhausts (f : Nat → Except JsError α) :
    ∀ left attempt e,
      (∀ i, attempt ≤ i → i < attempt + left → ∃ e', f i = .error e' ∧ is429 e' = true) →
      f (attempt + left) = .error e →
      (runRetryFrom f attempt left).result = .error e ∧
        (runRetryFrom f attempt left).attempts = left + 1 := by
  intro left
  induction left with
  | zero =>
    intro attempt e _ hlast
    unfold runRetryFrom
    rw [show attempt + 0 = attempt from rfl] at hlast
    rw [hlast]
    exact ⟨rfl, rfl⟩
  | succ n ih =>
    intro attempt e hall hlast
    obtain ⟨e0, he0, h429⟩ := hall attempt (Nat.le_refl _) (by omega)
    unfold runRetryFrom
    rw [he0]
    simp only [h429, if_true]
    have hrec := ih (attempt + 1) e
      (fun i h1 h2 => hall i (by omega) (by omega))
      (by rw [show attempt + 1 + n = attempt + (n + 1) from by omega]; exact hlast)
    exact ⟨hrec.1, by simp [hrec.2]⟩

/-- **C4** (confirmed).  The retry wrapper: the wait for a failure prefers a
parseable nonempty `retry-after` header (clamped to 60 s; in particular
header `2` waits 2000 ms, not the 15000 ms default), all computed waits
respect the 60-second ceiling, the total number of invocations never exceeds
`maxRetries + 1` (where `defaultMaxRetries = 3`), a non-rate-limit failure
on the first attempt propagates unchanged, and if every attempt fails with a
rate-limit error the wrapper uses all `maxRetries + 1` attempts and rethrows
the final error unchanged. -/
theorem retry_wrapper_spec (f : Nat → Except JsError α) (maxRetries : Nat) (e : JsError) :
    ((replicateRunWithRetry f maxRetries).attempts ≤ maxRetries + 1) ∧
      (waitMsFor ⟨"429 Too Many Requests", some "2"⟩ = 2000 ∧ ((2000 : Int) ≠ 15000)) ∧
      (waitMsFor e ≤ 60000) ∧
      (∀ hdr sec, e.retryAfter = some hdr → hdr ≠ "" → jsParseInt hdr = some sec →
        waitMsFor e = min (sec * 1000) 60000) ∧
      (f 0 = .error e → is429 e = false →
        (replicateRunWithRetry f maxRetries).result = .error e) ∧
      ((∀ i, i < maxRetries → ∃ e', f i = .error e' ∧ is429 e' = true) →
        f maxRetries = .error e →
        (replicateRunWithRetry f maxRetries).result = .error e ∧
          (replicateRunWithRetry f maxRetries).attempts = maxRetries + 1) := by
  have hint : ∀ msg, waitMsFor.hintWaitMs msg ≤ 60000 := by
    intro msg
    unfold waitMsFor.hintWaitMs
    split
    · exact min_le_right _ _
    · split
      · exact min_le_right _ _
      · decide
  refine ⟨runRetryFrom_attempts_le f maxRetries 0, ⟨by decide, by decide⟩, ?_, ?_, ?_, ?_⟩
  · unfold waitMsFor
    split
    · split
      · split
        · exact min_le_right _ _
        · decide
      · exact hint _
    · exact hint _
  · intro hdr sec hra hne hparse
    unfold waitMsFor
    rw [hra]
    dsimp only
    rw [if_pos hne, hparse]
  · intro h0 h429
    unfold replicateRunWithRetry
    cases maxRetries with
    | zero => unfold runRetryFrom; rw [h0]
    | succ n => unfold runRetryFrom; rw [h0]; simp [h429]
  · intro hall hlast
    simpa using runRetryFrom_exhausts f maxRetries 0 e
      (fun i h1 h2 => hall i (by omega)) (by simpa using hlast)

/-- Closed instance of `retry_wrapper_spec`: a persistent rate-limit failure
is retried exactly `defaultMaxRetries + 1 = 4` times and then propagated
unchanged, and a `retry-after: 2` header waits 2000 ms. -/
theorem retry_wrapper_spec_witness :
    (replicateRunWithRetry
        (fun _ => (Except.error ⟨"HTTP 429: rate limit", none⟩ : Except JsError Unit))
        defaultMaxRetries).result = .error ⟨"HTTP 429: rate limit", none⟩ ∧
      (replicateRunWithRetry
          (fun _ => (Except.error ⟨"HTTP 429: rate limit", none⟩ : Except JsError Unit))
          defaultMaxRetries).attempts = 4 ∧
      waitMsFor ⟨"429 Too Many Requests", some "2"⟩ = 2000 := by
  have h := retry_wrapper_spec
    (fun _ => (Except.error ⟨"HTTP 429: rate limit", none⟩ : Except JsError Unit))
    defaultMaxRetries ⟨"HTTP 429: rate limit", none⟩
  have hx := h.2.2.2.2.2 (fun i _ => ⟨⟨"HTTP 429: rate limit", none⟩, rfl, by decide⟩) rfl
  exact ⟨hx.1, hx.2, h.2.1.1⟩

-- ── C3: quote handling of parseLine / parseCsvToRows ─────────────────────────

/-- The scanner only ever appends to the emitted-fields list, so a nonempty
initial list factors out. -/
theorem foldl_lineStep_split (cs : List Char) :
    ∀ (a : List String) (c : List Char) (q : Bool),
      cs.foldl lineStep ⟨a, c, q⟩ =
        ⟨a ++ (cs.foldl lineStep ⟨[], c, q⟩).acc,
          (cs.foldl lineStep ⟨[], c, q⟩).cur,
          (cs.foldl lineStep ⟨[], c, q⟩).inQuotes⟩ := by
  induction cs with
  | nil => intro a c q; simp
  | cons ch t ih =>
    intro a c q
    simp only [List.foldl_cons]
    by_cases h1 : ch = '"'
    · rw [show lineStep ⟨a, c, q⟩ ch = ⟨a, c, !q⟩ from by simp [lineStep, h1],
        show lineStep ⟨[], c, q⟩ ch = ⟨[], c, !q⟩ from by simp [lineStep, h1]]
      exact ih a c (!q)
    · by_cases h2 : ch = ',' ∧ q = false
      · rw [show lineStep ⟨a, c, q⟩ ch = ⟨a ++ [String.mk (trimChars c)], [], q⟩ from by
            simp [lineStep, h1, h2.1, h2.2],
          show lineStep ⟨[], c, q⟩ ch = ⟨[String.mk (trimChars c)], [], q⟩ from by
            simp [lineStep, h1, h2.1, h2.2]]
        rw [ih (a ++ [String.mk (trimChars c)]) [] q, ih [String.mk (trimChars c)] [] q]
        simp
      · rw [show lineStep ⟨a, c, q⟩ ch = ⟨a, c ++ [ch], q⟩ from by simp [lineStep, h1, h2],
          show lineStep ⟨[], c, q⟩ ch = ⟨[], c ++ [ch], q⟩ from by simp [lineStep, h1, h2]]
        exact ih a (c ++ [ch]) q

/-- Inside a quoted region, every quote-free character is appended verbatim
(commas included). -/
theorem foldl_lineStep_quoted (s : List Char) (h : ∀ ch ∈ s, ch ≠ '"') :
    ∀ (a : List String) (c : List Char), s.foldl lineStep ⟨a, c, true⟩ = ⟨a, c ++ s, true⟩ := by
  induction s with
  | nil => intro a c; simp
  | cons ch t ih =>
    intro a c
    have hch : ch ≠ '"' := h ch (List.mem_cons_self ch t)
    simp only [List.foldl_cons]
    rw [show lineStep ⟨a, c, true⟩ ch = ⟨a, c ++ [ch], true⟩ from by simp [lineStep, hch]]
    rw [ih (fun x hx => h x (List.mem_cons_of_mem _ hx)) a (c ++ [ch])]
    simp

/-- **C3** (corrected).  Quote-enclosed fields whose content carries no
quote character parse to exactly the (trimmed) enclosed content — embedded
commas included — and the quote flag toggles per character within one line.
However (i) a doubled quote is **deleted**, not collapsed to a single quote
(`"a""b"` parses to `ab`), and (ii) embedded newlines are not respected:
`parseCsvToRows` splits on `\n` before the quote-aware scan, so a quoted
field containing a newline is torn into separate rows. -/
theorem parseLine_quoted_amended :
    (∀ (s rest : List Char), (∀ ch ∈ s, ch ≠ '"') →
        parseLineChars ('"' :: s ++ '"' :: ',' :: rest) =
            String.mk (trimChars s) :: parseLineChars rest ∧
          parseLineChars ('"' :: s ++ ['"']) = [String.mk (trimChars s)]) ∧
      parseLine "\"a\"\"b\"" = ["ab"] ∧
      (parseCsvToRows "h\n\"x\ny\"").rows = [[("h", Cell.str "x")], [("h", Cell.str "y")]] := by
  refine ⟨?_, by decide, by decide⟩
  intro s rest h
  have hq : lineStep ⟨[], [], false⟩ '"' = ⟨[], [], true⟩ := by simp [lineStep]
  constructor
  · show (('"' :: s ++ '"' :: ',' :: rest).foldl lineStep ⟨[], [], false⟩).acc ++ _ = _
    have : ('"' :: s ++ '"' :: ',' :: rest).foldl lineStep ⟨[], [], false⟩ =
        (',' :: rest).foldl lineStep ⟨[], s, false⟩ := by
      rw [List.cons_append, List.foldl_cons, hq, List.foldl_append,
        foldl_lineStep_quoted s h [] []]
      simp only [List.nil_append, List.foldl_cons]
      rw [show lineStep ⟨[], s, true⟩ '"' = ⟨[], s, false⟩ from by simp [lineStep]]
    rw [this]
    simp only [List.foldl_cons]
    rw [show lineStep ⟨[], s, false⟩ ',' = ⟨[String.mk (trimChars s)], [], false⟩ from by
      simp [lineStep]]
    rw [foldl_lineStep_split rest [String.mk (trimChars s)] [] false]
    simp [parseLineChars]
  · show (('"' :: s ++ ['"']).foldl lineStep ⟨[], [], false⟩).acc ++ _ = _
    rw [List.cons_append, List.foldl_cons, hq, List.foldl_append,
      foldl_lineStep_quoted s h [] []]
    simp only [List.nil_append, List.foldl_cons, List.foldl_nil]
    rw [show lineStep ⟨[], s, true⟩ '"' = ⟨[], s, false⟩ from by simp [lineStep]]
    simp

/-- Closed instance of `parseLine_quoted_amended`: the quoted field `"b,c"`
keeps its embedded comma and a following field still parses. -/
theorem parseLine_quoted_amended_witness :
    parseLineChars ('"' :: "b,c".data ++ '"' :: ',' :: "d".data) = ["b,c", "d"] := by
  rw [(parseLine_quoted_amended.1 "b,c".data "d".data (by decide)).1]
  decide

/-- **C3** counterexample: doubled quotes are deleted rather than collapsed
to one (`"a""b"` should contain a literal quote per the claim, but does
not), and a quoted field with an embedded newline is torn into two rows
instead of one field. -/
theorem parseLine_doubled_quote_cex :
    parseLine "\"a\"\"b\"" = ["ab"] ∧ (["ab"] : List String) ≠ ["a\"b"] ∧
      (parseCsvToRows "h\n\"x\ny\"").rows =
        [[("h", Cell.str "x")], [("h", Cell.str "y")]] ∧
      (parseCsvToRows "h\n\"x\ny\"").rows ≠ [[("h", Cell.str "x\ny")]] := by
  refine ⟨by decide, by decide, by decide, by decide⟩

-- ── C5: compute_column_stats ─────────────────────────────────────────────────

/-- Folding `acc + f b` accumulates the sum of the images. -/
theorem foldl_add_f (f : Rat → Rat) :
    ∀ (l : List Rat) (a : Rat), l.foldl (fun acc b => acc + f b) a = a + (l.map f).sum := by
  intro l
  induction l with
  | nil => intro a; simp
  | cons x t ih =>
    intro a
    simp only [List.foldl_cons, List.map_cons, List.sum_cons]
    rw [ih]
    ring

/-- `sumList` is the list sum. -/
theorem sumList_eq (l : List Rat) : sumList l = l.sum := by
  simpa [sumList] using foldl_add_f (fun b => b) l 0

/-- Folding with `min` can only shrink the accumulator. -/
theorem foldl_min_le_init : ∀ (t : List Rat) (a : Rat), t.foldl min a ≤ a := by
  intro t
  induction t with
  | nil => intro a; simp
  | cons x t ih =>
    intro a
    exact le_trans (ih (min a x)) (min_le_left a x)

/-- The fold with `min` is below every list element. -/
theorem foldl_min_le_mem : ∀ (t : List Rat) (a x : Rat), x ∈ t → t.foldl min a ≤ x := by
  intro t
  induction t with
  | nil => intro a x hx; cases hx
  | cons y t ih =>
    intro a x hx
    rcases List.mem_cons.1 hx with h | h
    · subst h
      exact le_trans (foldl_min_le_init t (min a x)) (min_le_right a x)
    · exact ih (min a y) x h

/-- `Math.min(...l)` is below every element. -/
theorem listMin_le_of_mem (l : List Rat) (x : Rat) (hx : x ∈ l) : listMin l ≤ x := by
  cases l with
  | nil => cases hx
  | cons y t =>
    rcases List.mem_cons.1 hx with h | h
    · subst h; exact foldl_min_le_init t x
    · exact foldl_min_le_mem t y x h

/-- Folding with `max` can only grow the accumulator. -/
theorem init_le_foldl_max : ∀ (t : List Rat) (a : Rat), a ≤ t.foldl max a := by
  intro t
  induction t with
  | nil => intro a; simp
  | cons x t ih =>
    intro a
    exact le_trans (le_max_left a x) (ih (max a x))

/-- The fold with `max` is above every list element. -/
theorem mem_le_foldl_max : ∀ (t : List Rat) (a x : Rat), x ∈ t → x ≤ t.foldl max a := by
  intro t
  induction t with
  | nil => intro a x hx; cases hx
  | cons y t ih =>
    intro a x hx
    rcases List.mem_cons.1 hx with h | h
    · subst h
      exact le_trans (le_max_right a x) (init_le_foldl_max t (max a x))
    · exact ih (max a y) x h

/-- `Math.max(...l)` is above every element. -/
theorem mem_le_listMax (l : List Rat) (x : Rat) (hx : x ∈ l) : x ≤ listMax l := by
  cases l with
  | nil => cases hx
  | cons y t =>
    rcases List.mem_cons.1 hx with h | h
    · subst h; exact init_le_foldl_max t x
    · exact mem_le_foldl_max t y x h

/-- A uniform lower bound scales to the sum. -/
theorem card_mul_le_sum (l : List Rat) (m : Rat) (h : ∀ x ∈ l, m ≤ x) :
    (l.length : Rat) * m ≤ l.sum := by
  induction l with
  | nil => simp
  | cons x t ih =>
    have h1 : m ≤ x := h x (List.mem_cons_self x t)
    have h2 := ih (fun y hy => h y (List.mem_cons_of_mem _ hy))
    simp only [List.length_cons, List.sum_cons]
    push_cast
    ring_nf
    ring_nf at h2
    linarith

/-- A uniform upper bound scales to the sum. -/
theorem sum_le_card_mul (l : List Rat) (m : Rat) (h : ∀ x ∈ l, x ≤ m) :
    l.sum ≤ (l.length : Rat) * m := by
  induction l with
  | nil => simp
  | cons x t ih =>
    have h1 : x ≤ m := h x (List.mem_cons_self x t)
    have h2 := ih (fun y hy => h y (List.mem_cons_of_mem _ hy))
    simp only [List.length_cons, List.sum_cons]
    push_cast
    ring_nf
    ring_nf at h2
    linarith

/-- The unrounded mean is at least the minimum. -/
theorem listMin_le_mean (l : List Rat) (hne : l ≠ []) :
    listMin l ≤ sumList l / (l.length : Rat) := by
  have hpos : (0 : Rat) < (l.length : Rat) := by
    exact_mod_cast List.length_pos.mpr hne
  rw [le_div_iff₀ hpos, sumList_eq, mul_comm]
  exact card_mul_le_sum l (listMin l) (fun x hx => listMin_le_of_mem l x hx)

/-- The unrounded mean is at most the maximum. -/
theorem mean_le_listMax (l : List Rat) (hne : l ≠ []) :
    sumList l / (l.length : Rat) ≤ listMax l := by
  have hpos : (0 : Rat) < (l.length : Rat) := by
    exact_mod_cast List.length_pos.mpr hne
  rw [div_le_iff₀ hpos, sumList_eq, mul_comm]
  exact sum_le_card_mul l (listMax l) (fun x hx => mem_le_listMax l x hx)

/-- The squared-deviation fold stays nonnegative. -/
theorem foldl_add_sq_nonneg (m : Rat) :
    ∀ (l : List Rat) (a : Rat), 0 ≤ a → 0 ≤ l.foldl (fun acc b => acc + (b - m) ^ 2) a := by
  intro l
  induction l with
  | nil => intro a ha; simpa using ha
  | cons x t ih =>
    intro a ha
    exact ih (a + (x - m) ^ 2) (add_nonneg ha (sq_nonneg _))

/-- As many numeric values as rows whose cell parses. -/
theorem length_numericValues (rows : List Row) (col : String) :
    (numericValues rows col).length =
      (rows.filter (fun r => (cellFloat (objGet r col)).isSome)).length := by
  induction rows with
  | nil => rfl
  | cons r t ih =>
    unfold numericValues at ih ⊢
    cases h : cellFloat (objGet r col) <;>
      simp [List.filterMap_cons, List.filter_cons, h, ih]

/-- **C5** (corrected).  `compute_column_stats` aggregates over exactly the
parseable numeric values of the resolved column (non-parsing cells are
excluded, not zeroed): the count equals the number of rows whose cell
parses, the variance is the population variance (division by N), the
variance — and hence the standard deviation `√variance` — is nonnegative,
and the **unrounded** mean lies between min and max; the returned `mean`
field is the unrounded mean rounded to 4 decimal places (`fmt`) and may
therefore leave the `[min, max]` interval (see the counterexample).  With
zero parseable values the tool returns an error mapping, never a `NaN`. -/
theorem compute_column_stats_amended (env : DateEnv) (rows : List Row) (nm : String)
    (col : String) (vals : List Rat)
    (hcol : col = resolveCol rows nm) (hvals : vals = numericValues rows col) :
    (vals = [] → executeTool env "compute_column_stats" { column := nm } (some rows) =
        .error ("No numeric values found in column \"" ++ col ++ "\". Available columns: " ++
          joinHeaders (availableHeadersOf rows))) ∧
      (vals ≠ [] →
        executeTool env "compute_column_stats" { column := nm } (some rows) =
            .columnStats (statsOf col vals) ∧
          (statsOf col vals).count =
            (rows.filter (fun r => (cellFloat (objGet r col)).isSome)).length ∧
          (statsOf col vals).min ≤ sumList vals / (vals.length : Rat) ∧
          sumList vals / (vals.length : Rat) ≤ (statsOf col vals).max ∧
          (statsOf col vals).mean = fmt (sumList vals / (vals.length : Rat)) ∧
          (statsOf col vals).variance =
            ((vals.map (fun b => (b - sumList vals / (vals.length : Rat)) ^ 2)).sum) /
              (vals.length : Rat) ∧
          0 ≤ (statsOf col vals).variance ∧
          0 ≤ Real.sqrt (statsOf col vals).variance) := by
  have hexec : executeTool env "compute_column_stats" { column := nm } (some rows) =
      computeColumnStatsTool rows nm := rfl
  constructor
  · intro hnil
    rw [hexec]
    unfold computeColumnStatsTool
    dsimp only
    rw [← hcol, ← hvals, if_pos hnil]
  · intro hne
    refine ⟨?_, ?_, listMin_le_mean vals hne, mean_le_listMax vals hne, rfl, ?_, ?_, ?_⟩
    · rw [hexec]
      unfold computeColumnStatsTool
      dsimp only
      rw [← hcol, ← hvals, if_neg hne]
    · rw [show (statsOf col vals).count = vals.length from rfl, hvals]
      exact length_numericValues rows col
    · show (vals.foldl (fun a b => a + (b - sumList vals / (vals.length : Rat)) ^ 2) 0) /
        (vals.length : Rat) = _
      rw [foldl_add_f (fun b => (b - sumList vals / (vals.length : Rat)) ^ 2) vals 0]
      rw [zero_add]
    · show 0 ≤ (vals.foldl (fun a b => a + (b - sumList vals / (vals.length : Rat)) ^ 2) 0) /
        (vals.length : Rat)
      exact div_nonneg (foldl_add_sq_nonneg _ vals 0 le_rfl) (Nat.cast_nonneg _)
    · exact Real.sqrt_nonneg _

/-- Closed instance of `compute_column_stats_amended`: on a two-value column
the tool returns the stats record and the population variance is
nonnegative. -/
theorem compute_column_stats_amended_witness :
    executeTool trivialDateEnv "compute_column_stats" { column := "a" }
        (some [[("a", Cell.str "1")], [("a", Cell.str "3")]]) =
      .columnStats (statsOf "a" (numericValues [[("a", Cell.str "1")], [("a", Cell.str "3")]] "a")) ∧
      0 ≤ (statsOf "a" (numericValues [[("a", Cell.str "1")], [("a", Cell.str "3")]] "a")).variance := by
  have h := (compute_column_stats_amended trivialDateEnv
    [[("a", Cell.str "1")], [("a", Cell.str "3")]] "a"
    (resolveCol [[("a", Cell.str "1")], [("a", Cell.str "3")]] "a")
    (numericValues [[("a", Cell.str "1")], [("a", Cell.str "3")]]
      (resolveCol [[("a", Cell.str "1")], [("a", Cell.str "3")]] "a"))
    rfl rfl).2 (by
      show numericValues _ "a" ≠ []
      simp [numericValues, cellFloat, objGet, jsParseFloat, parseFloatChars, digitsVal,
        parseExpPart, isJsWs])
  have hc : resolveCol [[("a", Cell.str "1")], [("a", Cell.str "3")]] "a" = "a" := by decide
  rw [hc] at h
  exact ⟨h.1, h.2.2.2.2.2.2.1⟩

/-- **C5** counterexample: on the single-value column `0.00001` the returned
`mean` is rounded to 4 decimals (`0`), while `min` is the unrounded value
`0.00001`, so the returned record violates `min ≤ mean`. -/
theorem compute_column_stats_cex :
    executeTool trivialDateEnv "compute_column_stats" { column := "a" }
        (some [[("a", Cell.str "0.00001")]]) =
      .columnStats ⟨"a", 1, 0, 0, 0, 1/100000, 1/100000⟩ ∧
      ¬((1 : Rat)/100000 ≤ (0 : Rat)) := by
  constructor
  · simp [executeTool, computeColumnStatsTool, resolveCol, numericValues, cellFloat, objGet,
      jsParseFloat, parseFloatChars, digitsVal, parseExpPart, isJsWs, statsOf, sumList,
      sortAsc, insertAsc, median, fmt, toFixedNum, listMin, listMax, availableHeadersOf,
      rowKeys, joinHeaders]
    norm_num
  · norm_num

-- ── Object lemmas shared by C7 and C10 ───────────────────────────────────────

/-- In the replace branch the set key is found with the new value. -/
theorem find?_map_set (k : String) (v : Cell) :
    ∀ (t : Row), t.any (fun p => p.1 == k) = true →
      (t.map (fun p => if p.1 == k then (p.1, v) else p)).find? (fun p => p.1 == k) =
        some (k, v) := by
  intro t
  induction t with
  | nil => intro h; cases h
  | cons p t ih =>
    intro h
    by_cases hp : p.1 == k
    · have hk : p.1 = k := by simpa using hp
      simp [List.find?_cons, hp, hk]
    · have ht : t.any (fun p => p.1 == k) = true := by
        simpa [List.any_cons, hp] using h
      simp only [List.map_cons]
      rw [if_neg (by simpa using hp)]
      rw [List.find?_cons_of_neg _ (by simpa using hp)]
      exact ih ht

/-- Replacing the value under `k` does not disturb lookups of other keys. -/
theorem find?_map_set_other (k k' : String) (v : Cell) (h : k' ≠ k) :
    ∀ (t : Row),
      (t.map (fun p => if p.1 == k then (p.1, v) else p)).find? (fun p => p.1 == k') =
        t.find? (fun p => p.1 == k') := by
  intro t
  induction t with
  | nil => rfl
  | cons p t ih =>
    simp only [List.map_cons]
    by_cases hp : p.1 == k'
    · have hk' : p.1 = k' := by simpa using hp
      have hpk : ¬(p.1 == k) = true := by
        simp only [beq_iff_eq]
        rw [hk']
        exact h
      rw [if_neg hpk]
      simp [List.find?_cons, hp]
    · have e1 : ((if (p.1 == k) = true then (p.1, v) else p).1 == k') = false := by
        split <;> simpa using hp
      have e2 : (p.1 == k') = false := by simpa using hp
      simp only [List.find?, e1, e2]
      exact ih

/-- Reading back the key just set yields the new value. -/
theorem objGet_objSet_same (r : Row) (k : String) (v : Cell) :
    objGet (objSet r k v) k = some v := by
  unfold objSet objGet
  by_cases h : r.any (fun p => p.1 == k) = true
  · rw [if_pos h, find?_map_set k v r h]
    rfl
  · rw [if_neg h, List.find?_append]
    have hnone : r.find? (fun p => p.1 == k) = none := by
      rw [List.find?_eq_none]
      intro p hp hpk
      exact h (List.any_eq_true.2 ⟨p, hp, hpk⟩)
    rw [hnone]
    simp [List.find?]

/-- Setting `k` leaves every other key's lookup unchanged. -/
theorem objGet_objSet_other (r : Row) (k k' : String) (v : Cell) (h : k' ≠ k) :
    objGet (objSet r k v) k' = objGet r k' := by
  unfold objSet objGet
  by_cases hA : r.any (fun p => p.1 == k) = true
  · rw [if_pos hA, find?_map_set_other k k' v h r]
  · rw [if_neg hA, List.find?_append]
    have hone : ([(k, v)] : Row).find? (fun p => p.1 == k') = none := by
      rw [List.find?_eq_none]
      intro p hp hpk
      simp only [List.mem_singleton] at hp
      subst hp
      have hk : k = k' := by simpa using hpk
      exact h hk.symm
    rw [hone]
    cases r.find? (fun p => p.1 == k') <;> rfl

/-- `objSet` keeps the key list, appending `k` only when it was absent. -/
theorem rowKeys_objSet (r : Row) (k : String) (v : Cell) :
    rowKeys (objSet r k v) =
      if r.any (fun p => p.1 == k) then rowKeys r else rowKeys r ++ [k] := by
  unfold objSet rowKeys
  by_cases h : r.any (fun p => p.1 == k) = true
  · rw [if_pos h, if_pos h, List.map_map]
    exact List.map_congr_left (fun p _ => by by_cases hp : p.1 = k <;> simp [hp])
  · rw [if_neg h, if_neg h]
    simp

-- ── C7: engagement values ────────────────────────────────────────────────────

/-- **C7** (corrected).  When a favorites-like and a views-like column are
detected and no `engagement` header exists, enrichment appends an
`engagement` column; per row its value is favorites/views rounded to six
decimal places whenever both parse and views is **positive**, and `null`
whenever either fails to parse or views is **not positive** (the code guards
with `view > 0`, so a zero *or negative* views value yields `null` — the
claim's "views is zero" undersells the guard; see the counterexample). -/
theorem enrich_values_amended (rows : List Row) (headers : List String) (fc vc : String)
    (hfav : (headers.find? reFavoriteCount).orElse (fun _ => headers.find? reLikes) = some fc)
    (hview : (headers.find? reViewCount).orElse (fun _ => headers.find? reViews) = some vc)
    (heng : headers.contains "engagement" = false)
    (hne : rows ≠ []) :
    (enrichWithEngagement rows headers).headers = headers ++ ["engagement"] ∧
      (enrichWithEngagement rows headers).rows =
        rows.map (fun r => objSet r "engagement" (engagementCell fc vc r)) ∧
      ∀ r ∈ rows,
        objGet (objSet r "engagement" (engagementCell fc vc r)) "engagement" =
            some (engagementCell fc vc r) ∧
          (∀ f v, cellFloat (objGet r fc) = some f → cellFloat (objGet r vc) = some v →
            0 < v → engagementCell fc vc r = .num (toFixedNum 6 (f / v))) ∧
          (cellFloat (objGet r fc) = none → engagementCell fc vc r = .null) ∧
          (cellFloat (objGet r vc) = none → engagementCell fc vc r = .null) ∧
          (∀ v, cellFloat (objGet r vc) = some v → v ≤ 0 →
            engagementCell fc vc r = .null) := by
  have hmain : enrichWithEngagement rows headers =
      ⟨rows.map (fun r => objSet r "engagement" (engagementCell fc vc r)),
        headers ++ ["engagement"]⟩ := by
    unfold enrichWithEngagement
    rw [if_neg hne]
    dsimp only
    rw [hfav, hview]
    dsimp only
    rw [heng]
    simp
  refine ⟨by rw [hmain], by rw [hmain], ?_⟩
  intro r _
  refine ⟨objGet_objSet_same r "engagement" (engagementCell fc vc r), ?_, ?_, ?_, ?_⟩
  · intro f v hf hv hpos
    unfold engagementCell
    rw [hf, hv]
    simp [hpos]
  · intro hf
    unfold engagementCell
    rw [hf]
  · intro hv
    unfold engagementCell
    rw [hv]
    cases cellFloat (objGet r fc) <;> rfl
  · intro v hv hle
    unfold engagementCell
    rw [hv]
    cases hf : cellFloat (objGet r fc)
    · rfl
    · simp [not_lt.2 hle]

/-- Closed instance of `enrich_values_amended`: with `Favorite Count` and
`View Count` detected and no `engagement` header, enrichment appends the
`engagement` header and each output row answers the `engagement` key. -/
theorem enrich_values_amended_witness :
    (enrichWithEngagement [[("Favorite Count", Cell.str "10"), ("View Count", Cell.str "40")]]
        ["Favorite Count", "View Count"]).headers =
      ["Favorite Count", "View Count", "engagement"] ∧
      objGet (objSet [("Favorite Count", Cell.str "10"), ("View Count", Cell.str "40")]
          "engagement"
          (engagementCell "Favorite Count" "View Count"
            [("Favorite Count", Cell.str "10"), ("View Count", Cell.str "40")]))
        "engagement" =
        some (engagementCell "Favorite Count" "View Count"
          [("Favorite Count", Cell.str "10"), ("View Count", Cell.str "40")]) := by
  have h := enrich_values_amended
    [[("Favorite Count", Cell.str "10"), ("View Count", Cell.str "40")]]
    ["Favorite Count", "View Count"] "Favorite Count" "View Count"
    (by decide) (by decide) (by decide) (by simp)
  exact ⟨h.1, (h.2.2 _ (List.mem_singleton.2 rfl)).1⟩

/-- **C7** counterexample: a parseable but *negative* views value yields
`null`, whereas the claim (null only for zero or unparseable views) demands
the quotient `10 / (-5)`. -/
theorem enrich_negative_views_cex :
    (enrichWithEngagement [[("Favorite Count", Cell.str "10"), ("View Count", Cell.str "-5")]]
        ["Favorite Count", "View Count"]).rows =
      [[("Favorite Count", Cell.str "10"), ("View Count", Cell.str "-5"),
        ("engagement", Cell.null)]] ∧
      Cell.null ≠ Cell.num (toFixedNum 6 ((10 : Rat) / (-5 : Rat))) := by
  constructor
  · unfold enrichWithEngagement
    rw [if_neg (by simp)]
    dsimp only
    rw [show ((["Favorite Count", "View Count"].find? reFavoriteCount).orElse
        (fun _ => ["Favorite Count", "View Count"].find? reLikes)) = some "Favorite Count"
      from by decide]
    rw [show ((["Favorite Count", "View Count"].find? reViewCount).orElse
        (fun _ => ["Favorite Count", "View Count"].find? reViews)) = some "View Count"
      from by decide]
    dsimp only
    rw [show (["Favorite Count", "View Count"].contains "engagement") = false from by decide]
    simp only [Bool.false_eq_true, if_false, List.map_cons, List.map_nil]
    rw [show engagementCell "Favorite Count" "View Count"
        [("Favorite Count", Cell.str "10"), ("View Count", Cell.str "-5")] = Cell.null from by
      unfold engagementCell
      rw [show cellFloat (objGet [("Favorite Count", Cell.str "10"),
          ("View Count", Cell.str "-5")] "Favorite Count") = some 10 from by
        simp [cellFloat, objGet, jsParseFloat, parseFloatChars, digitsVal, parseExpPart,
          isJsWs]]
      rw [show cellFloat (objGet [("Favorite Count", Cell.str "10"),
          ("View Count", Cell.str "-5")] "View Count") = some (-5) from by
        simp [cellFloat, objGet, jsParseFloat, parseFloatChars, digitsVal, parseExpPart,
          isJsWs]]
      norm_num]
    rw [show objSet [("Favorite Count", Cell.str "10"), ("View Count", Cell.str "-5")]
        "engagement" Cell.null =
        [("Favorite Count", Cell.str "10"), ("View Count", Cell.str "-5"),
          ("engagement", Cell.null)] from by
      unfold objSet
      rw [if_neg (by decide)]
      rfl]
  · simp

-- ── C10: enrichment frame conditions ─────────────────────────────────────────

/-- When both columns are detected, no `engagement` header exists and there
is at least one row, enrichment returns fresh mapped rows and appends the
header. -/
theorem enrich_applies (rows : List Row) (headers : List String) (fc vc : String)
    (hfav : (headers.find? reFavoriteCount).orElse (fun _ => headers.find? reLikes) = some fc)
    (hview : (headers.find? reViewCount).orElse (fun _ => headers.find? reViews) = some vc)
    (heng : headers.contains "engagement" = false)
    (hne : rows ≠ []) :
    enrichWithEngagement rows headers =
      ⟨rows.map (fun r => objSet r "engagement" (engagementCell fc vc r)),
        headers ++ ["engagement"]⟩ := by
  unfold enrichWithEngagement
  rw [if_neg hne]
  dsimp only
  rw [hfav, hview]
  dsimp only
  rw [heng]
  simp

/-- **C10** (corrected).  `enrichWithEngagement` is observationally
mutation-free (the model is a pure function over immutable values): when a
detected column is missing, the exact input rows and headers are returned;
when enrichment applies, the returned headers are the input headers with
`engagement` appended, the returned rows are the per-row images of `objSet`
(a fresh object: spread plus the `engagement` property) preserving the value
of every key other than `engagement` and answering `engagement` with the
computed cell.  However a row that already carries an `engagement` key
(while the headers do not) has that pair **overwritten in place**, not
preserved — the claim's "preserving every original key-value pair with only
the engagement key added" fails there; see the counterexample. -/
theorem enrich_frame_amended (rows : List Row) (headers : List String) :
    (((headers.find? reFavoriteCount).orElse (fun _ => headers.find? reLikes) = none ∨
        (headers.find? reViewCount).orElse (fun _ => headers.find? reViews) = none) →
      enrichWithEngagement rows headers = ⟨rows, headers⟩) ∧
      (∀ fc vc,
        (headers.find? reFavoriteCount).orElse (fun _ => headers.find? reLikes) = some fc →
        (headers.find? reViewCount).orElse (fun _ => headers.find? reViews) = some vc →
        headers.contains "engagement" = false → rows ≠ [] →
        (enrichWithEngagement rows headers).headers = headers ++ ["engagement"] ∧
          (enrichWithEngagement rows headers).rows =
            rows.map (fun r => objSet r "engagement" (engagementCell fc vc r)) ∧
          ∀ r ∈ rows,
            (∀ k, k ≠ "engagement" →
              objGet (objSet r "engagement" (engagementCell fc vc r)) k = objGet r k) ∧
              objGet (objSet r "engagement" (engagementCell fc vc r)) "engagement" =
                some (engagementCell fc vc r) ∧
              rowKeys (objSet r "engagement" (engagementCell fc vc r)) =
                (if r.any (fun p => p.1 == "engagement") then rowKeys r
                 else rowKeys r ++ ["engagement"])) := by
  constructor
  · intro hmiss
    unfold enrichWithEngagement
    split
    · rfl
    · dsimp only
      rcases hmiss with hm | hm
      · rw [hm]
      · rw [hm]
        cases (headers.find? reFavoriteCount).orElse (fun _ => headers.find? reLikes) <;> rfl
  · intro fc vc hfav hview heng hne
    have hmain := enrich_applies rows headers fc vc hfav hview heng hne
    refine ⟨by rw [hmain], by rw [hmain], ?_⟩
    intro r _
    exact ⟨fun k hk => objGet_objSet_other r "engagement" k (engagementCell fc vc r) hk,
      objGet_objSet_same r "engagement" (engagementCell fc vc r),
      rowKeys_objSet r "engagement" (engagementCell fc vc r)⟩

/-- Closed instance of `enrich_frame_amended`: with no views-like column the
exact inputs come back, and when enrichment applies the header list is
appended and other keys keep their values. -/
theorem enrich_frame_amended_witness :
    enrichWithEngagement [[("Favorite Count", Cell.str "1")]] ["Favorite Count"] =
      ⟨[[("Favorite Count", Cell.str "1")]], ["Favorite Count"]⟩ ∧
      (enrichWithEngagement [[("Favorite Count", Cell.str "1"), ("View Count", Cell.str "2")]]
          ["Favorite Count", "View Count"]).headers =
        ["Favorite Count", "View Count"] ++ ["engagement"] ∧
      objGet (objSet [("Favorite Count", Cell.str "1"), ("View Count", Cell.str "2")]
          "engagement"
          (engagementCell "Favorite Count" "View Count"
            [("Favorite Count", Cell.str "1"), ("View Count", Cell.str "2")]))
        "Favorite Count" =
        objGet [("Favorite Count", Cell.str "1"), ("View Count", Cell.str "2")]
          "Favorite Count" := by
  refine ⟨(enrich_frame_amended [[("Favorite Count", Cell.str "1")]] ["Favorite Count"]).1
      (Or.inr (by decide)), ?_, ?_⟩
  · exact ((enrich_frame_amended
      [[("Favorite Count", Cell.str "1"), ("View Count", Cell.str "2")]]
      ["Favorite Count", "View Count"]).2 "Favorite Count" "View Count"
      (by decide) (by decide) (by decide) (by simp)).1
  · exact (((enrich_frame_amended
      [[("Favorite Count", Cell.str "1"), ("View Count", Cell.str "2")]]
      ["Favorite Count", "View Count"]).2 "Favorite Count" "View Count"
      (by decide) (by decide) (by decide) (by simp)).2.2 _
      (List.mem_singleton.2 rfl)).1 "Favorite Count" (by decide)

/-- **C10** counterexample: a row already holding an `engagement` key (not
listed in the headers) has that pair overwritten in place by the computed
value, so not every original key-value pair is preserved. -/
theorem enrich_frame_cex :
    (enrichWithEngagement
        [[("Favorite Count", Cell.str "1"), ("View Count", Cell.str "2"),
          ("engagement", Cell.str "old")]]
        ["Favorite Count", "View Count"]).rows =
      [[("Favorite Count", Cell.str "1"), ("View Count", Cell.str "2"),
        ("engagement", Cell.num (1/2))]] ∧
      ("engagement", Cell.str "old") ∉
        [("Favorite Count", Cell.str "1"), ("View Count", Cell.str "2"),
          ("engagement", Cell.num (1/2))] := by
  constructor
  · rw [enrich_applies
      [[("Favorite Count", Cell.str "1"), ("View Count", Cell.str "2"),
        ("engagement", Cell.str "old")]]
      ["Favorite Count", "View Count"] "Favorite Count" "View Count"
      (by decide) (by decide) (by decide) (by simp)]
    dsimp only [List.map_cons, List.map_nil]
    rw [show engagementCell "Favorite Count" "View Count"
        [("Favorite Count", Cell.str "1"), ("View Count", Cell.str "2"),
          ("engagement", Cell.str "old")] = Cell.num (1/2) from by
      unfold engagementCell
      rw [show cellFloat (objGet [("Favorite Count", Cell.str "1"),
          ("View Count", Cell.str "2"), ("engagement", Cell.str "old")] "Favorite Count") =
          some 1 from by
        simp [cellFloat, objGet, jsParseFloat, parseFloatChars, digitsVal, parseExpPart, isJsWs]
      ]
      rw [show cellFloat (objGet [("Favorite Count", Cell.str "1"),
          ("View Count", Cell.str "2"), ("engagement", Cell.str "old")] "View Count") =
          some 2 from by
        simp [cellFloat, objGet, jsParseFloat, parseFloatChars, digitsVal, parseExpPart, isJsWs]
      ]
      norm_num [toFixedNum]]
    rw [show objSet [("Favorite Count", Cell.str "1"), ("View Count", Cell.str "2"),
        ("engagement", Cell.str "old")] "engagement" (Cell.num (1/2)) =
        [("Favorite Count", Cell.str "1"), ("View Count", Cell.str "2"),
          ("engagement", Cell.num (1/2))] from by
      unfold objSet
      rw [if_pos (by decide)]
      rfl]
  · intro hmem
    simp only [List.mem_cons, List.not_mem_nil, or_false] at hmem
    rcases hmem with h | h | h <;> simp at h

-- ── C8: value-count ranking ──────────────────────────────────────────────────

/-- Membership in a stable descending insertion. -/
theorem mem_insertCountDesc (x z : String × Nat) :
    ∀ (m : List (String × Nat)), z ∈ insertCountDesc x m ↔ z = x ∨ z ∈ m := by
  intro m
  induction m with
  | nil => simp [insertCountDesc]
  | cons y ys ih =>
    unfold insertCountDesc
    by_cases h : x.2 ≥ y.2
    · simp [h, List.mem_cons]
    · simp only [h, if_false, List.mem_cons, ih]
      tauto

/-- The stable descending insertion respects sortedness by count. -/
theorem sorted_insertCountDesc (x : String × Nat) :
    ∀ (m : List (String × Nat)), List.Pairwise (fun a b => a.2 ≥ b.2) m →
      List.Pairwise (fun a b => a.2 ≥ b.2) (insertCountDesc x m) := by
  intro m
  induction m with
  | nil => intro _; simp [insertCountDesc]
  | cons y ys ih =>
    intro h
    rw [List.pairwise_cons] at h
    unfold insertCountDesc
    by_cases hxy : x.2 ≥ y.2
    · rw [if_pos hxy]
      rw [List.pairwise_cons]
      refine ⟨?_, List.pairwise_cons.2 h⟩
      intro z hz
      rcases List.mem_cons.1 hz with rfl | hz'
      · exact hxy
      · exact le_trans (h.1 z hz') hxy
    · rw [if_neg hxy]
      rw [List.pairwise_cons]
      refine ⟨?_, ih h.2⟩
      intro z hz
      rcases (mem_insertCountDesc x z ys).1 hz with rfl | hz'
      · exact le_of_not_le hxy
      · exact h.1 z hz'

/-- The comparator sort `sortCountDesc` is sorted descending by count. -/
theorem sorted_sortCountDesc (l : List (String × Nat)) :
    List.Pairwise (fun a b => a.2 ≥ b.2) (sortCountDesc l) := by
  induction l with
  | nil => simp [sortCountDesc]
  | cons x t ih => exact sorted_insertCountDesc x (sortCountDesc t) ih

/-- Stability of the insertion, phrased through count-classes: inserting `x`
leaves the relative order of every count-class untouched and puts `x` in
front of its own class. -/
theorem filter_insertCountDesc (x : String × Nat) (c : Nat) :
    ∀ (m : List (String × Nat)),
      (insertCountDesc x m).filter (fun p => p.2 == c) =
        if x.2 = c then x :: m.filter (fun p => p.2 == c)
        else m.filter (fun p => p.2 == c) := by
  intro m
  induction m with
  | nil =>
    by_cases hx : x.2 = c
    · simp [insertCountDesc, List.filter_cons, hx]
    · simp [insertCountDesc, List.filter_cons, hx,
        show (x.2 == c) = false from by simpa using hx]
  | cons y ys ih =>
    unfold insertCountDesc
    by_cases hxy : x.2 ≥ y.2
    · rw [if_pos hxy]
      by_cases hx : x.2 = c <;> simp [List.filter_cons, hx]
    · rw [if_neg hxy]
      by_cases hy : y.2 = c
      · have hx : ¬ x.2 = c := by omega
        rw [if_neg hx]
        simp only [List.filter_cons, show (y.2 == c) = true from by simpa using hy]
        rw [ih, if_neg hx]
      · simp only [List.filter_cons, show (y.2 == c) = false from by simpa using hy]
        exact ih

/-- Stability of `sortCountDesc`: each count-class of the output is exactly
the count-class of the input, in the same relative order. -/
theorem filter_sortCountDesc (c : Nat) :
    ∀ (l : List (String × Nat)),
      (sortCountDesc l).filter (fun p => p.2 == c) = l.filter (fun p => p.2 == c) := by
  intro l
  induction l with
  | nil => rfl
  | cons x t ih =>
    show (insertCountDesc x (sortCountDesc t)).filter _ = _
    rw [filter_insertCountDesc x c (sortCountDesc t)]
    by_cases hx : x.2 = c
    · rw [if_pos hx, ih]
      simp [List.filter_cons, hx]
    · rw [if_neg hx, ih]
      simp [List.filter_cons, show (x.2 == c) = false from by simpa using hx]

/-- Without canonical array-index keys, `Object.entries` is the insertion
(first-seen) order. -/
theorem jsEntries_of_no_index (m : List (String × Nat))
    (h : ∀ p ∈ m, isArrayIndexKey p.1 = false) : jsEntries m = m := by
  unfold jsEntries
  have h1 : m.filter (fun p => isArrayIndexKey p.1) = [] := by
    rw [List.filter_eq_nil_iff]
    intro p hp
    simp [h p hp]
  have h2 : m.filter (fun p => ¬ isArrayIndexKey p.1) = m := by
    rw [List.filter_eq_self]
    intro p hp
    simp [h p hp]
  rw [h1, h2]
  rfl

/-- **C8** (corrected).  The ranking of `get_value_counts` (and of the
categorical top-5 of the dataset summary, which uses the same
count-then-sort pipeline) is descending by count, and the sort is stable, so
ties keep the enumeration order of the counts object.  That enumeration
order is first-seen insertion order **only for keys that are not canonical
integer strings**; JS objects enumerate canonical integer keys first, in
ascending numeric order, so for such values the first-seen tie-break of the
claim does not hold (see the counterexample). -/
theorem value_counts_ranking_amended (rows : List Row) (colArg : String) (tn : Option Int) :
    List.Pairwise (fun a b => a.2 ≥ b.2)
        (sortCountDesc (jsEntries (buildCounts rows (resolveCol rows colArg)))) ∧
      (∀ c, (sortCountDesc (jsEntries (buildCounts rows (resolveCol rows colArg)))).filter
            (fun p => p.2 == c) =
          (jsEntries (buildCounts rows (resolveCol rows colArg))).filter
            (fun p => p.2 == c)) ∧
      ((∀ p ∈ buildCounts rows (resolveCol rows colArg), isArrayIndexKey p.1 = false) →
        jsEntries (buildCounts rows (resolveCol rows colArg)) =
          buildCounts rows (resolveCol rows colArg)) ∧
      getValueCountsTool rows colArg tn =
        .valueCounts (resolveCol rows colArg) rows.length
          (jsFromEntries (jsSlice0 (orTen tn)
            (sortCountDesc (jsEntries (buildCounts rows (resolveCol rows colArg)))))) ∧
      List.Pairwise (fun a b => a.2 ≥ b.2) (categoricalTop rows colArg) := by
  refine ⟨sorted_sortCountDesc _, fun c => filter_sortCountDesc c _,
    jsEntries_of_no_index _, rfl, ?_⟩
  exact List.Pairwise.sublist (List.take_sublist 5 _) (sorted_sortCountDesc _)

/-- Closed instance of `value_counts_ranking_amended`: for plain string
values (no integer-like keys) the enumeration order is the first-seen
insertion order, and the ranking is sorted descending. -/
theorem value_counts_ranking_amended_witness :
    jsEntries (buildCounts [[("a", Cell.str "x")], [("a", Cell.str "y")], [("a", Cell.str "x")]]
        (resolveCol [[("a", Cell.str "x")], [("a", Cell.str "y")], [("a", Cell.str "x")]] "a")) =
      buildCounts [[("a", Cell.str "x")], [("a", Cell.str "y")], [("a", Cell.str "x")]]
        (resolveCol [[("a", Cell.str "x")], [("a", Cell.str "y")], [("a", Cell.str "x")]] "a") ∧
      List.Pairwise (fun a b => a.2 ≥ b.2)
        (sortCountDesc (jsEntries (buildCounts
          [[("a", Cell.str "x")], [("a", Cell.str "y")], [("a", Cell.str "x")]]
          (resolveCol [[("a", Cell.str "x")], [("a", Cell.str "y")], [("a", Cell.str "x")]]
            "a")))) := by
  have h := value_counts_ranking_amended
    [[("a", Cell.str "x")], [("a", Cell.str "y")], [("a", Cell.str "x")]] "a" none
  exact ⟨h.2.2.1 (by decide), h.1⟩

/-- **C8** counterexample: the distinct values `10` and `2` (counts tied at
one, `10` encountered first) come back ranked `2` before `10`, because
canonical integer keys are enumerated ascending before the stable sort. -/
theorem value_counts_tie_cex :
    getValueCountsTool [[("a", Cell.str "10")], [("a", Cell.str "2")]] "a" none =
      .valueCounts "a" 2 [("2", 1), ("10", 1)] ∧
      buildCounts [[("a", Cell.str "10")], [("a", Cell.str "2")]] "a" =
        [("10", 1), ("2", 1)] ∧
      ([("2", 1), ("10", 1)] : List (String × Nat)) ≠ [("10", 1), ("2", 1)] := by
  refine ⟨by decide, by decide, by decide⟩

-- ── C1: column resolution and unresolvable-column behaviour ──────────────────

/-- A key that is absent from a row makes the property read `undefined`. -/
theorem objGet_eq_none_of_not_mem (r : Row) (k : String) (h : k ∉ rowKeys r) :
    objGet r k = none := by
  unfold objGet
  rw [List.find?_eq_none.2]
  · rfl
  · intro p hp hpk
    exact h (List.mem_map.2 ⟨p, hp, (by simpa using hpk)⟩)

/-- An everywhere-absent column has no numeric values. -/
theorem numericValues_eq_nil (rows : List Row) (col : String)
    (hAbs : ∀ r ∈ rows, objGet r col = none) : numericValues rows col = [] := by
  unfold numericValues
  rw [List.filterMap_eq_nil_iff]
  intro r hr
  rw [hAbs r hr]
  rfl

/-- An everywhere-absent column yields an empty counts object. -/
theorem buildCounts_eq_nil (rows : List Row) (col : String)
    (hAbs : ∀ r ∈ rows, objGet r col = none) : buildCounts rows col = [] := by
  unfold buildCounts
  suffices h : ∀ (rs : List Row), (∀ r ∈ rs, objGet r col = none) →
      ∀ (m : List (String × Nat)),
        rs.foldl (fun m r =>
          match objGet r col with
          | none => m
          | some (.str "") => m
          | some c => bumpCount m (jsKeyString c)) m = m by
    exact h rows hAbs []
  intro rs
  induction rs with
  | nil => intro _ m; rfl
  | cons r t ih =>
    intro habs m
    simp only [List.foldl_cons]
    rw [habs r (List.mem_cons_self r t)]
    exact ih (fun r hr => habs r (List.mem_cons_of_mem _ hr)) m

/-- A row whose metric cell is absent contributes no chart point. -/
theorem plotRowPoint_eq_none (env : DateEnv) (metricCol dateCol : String) (r : Row)
    (h : objGet r metricCol = none) : plotRowPoint env metricCol dateCol r = none := by
  unfold plotRowPoint
  by_cases hd : cellTruthy (objGet r dateCol) = true
  · rw [if_neg (by simp [hd]), h]
    rfl
  · rw [if_pos (by simpa using hd)]

/-- A comparator that always answers `0` (as on an unresolvable sort column)
leaves the stable sort as the identity. -/
theorem jsSortRows_id (c : Row → Row → Rat) :
    ∀ (l : List Row), (∀ a ∈ l, ∀ b, c a b = 0) → jsSortRows c l = l := by
  intro l
  induction l with
  | nil => intro _; rfl
  | cons x t ih =>
    intro h
    show insertRowBy c x (jsSortRows c t) = x :: t
    rw [ih (fun a ha b => h a (List.mem_cons_of_mem _ ha) b)]
    cases t with
    | nil => rfl
    | cons y ys =>
      unfold insertRowBy
      rw [if_pos (by rw [h x (List.mem_cons_self x _) y])]

/-- The `get_top_tweets` comparator answers `0` whenever the left row lacks
the sort column. -/
theorem rowCmp_eq_zero (sortCol : String) (asc : Bool) (a b : Row)
    (h : objGet a sortCol = none) : rowCmp sortCol asc a b = 0 := by
  unfold rowCmp
  rw [h]
  cases cellFloat (objGet b sortCol) <;> rfl

/-- `resolveCol` succeeds whenever some header matches after
case/space/underscore/hyphen normalisation, provided no header is the empty
string: a found `""` header is falsy in JS, so `keys.find(...) || name`
falls back to the unresolved name there. -/
theorem resolveCol_resolves (r0 : Row) (rest : List Row) (name : String)
    (hname : name ≠ "") (hnoempty : "" ∉ rowKeys r0)
    (hmatch : ∃ k ∈ rowKeys r0, normName k = normName name) :
    resolveCol (r0 :: rest) name ∈ rowKeys r0 := by
  unfold resolveCol
  dsimp only
  rw [if_neg hname]
  by_cases hc : (rowKeys r0).contains name = true
  · rw [if_pos hc]
    simpa using hc
  · rw [if_neg hc]
    obtain ⟨k, hk, hnorm⟩ := hmatch
    have hsome : ((rowKeys r0).find? (fun k => normName k == normName name)).isSome := by
      rw [List.find?_isSome]
      exact ⟨k, hk, by simp [hnorm]⟩
    obtain ⟨k', hk'⟩ := Option.isSome_iff_exists.1 hsome
    rw [hk']
    have hmem : k' ∈ rowKeys r0 := List.mem_of_find?_eq_some hk'
    dsimp only
    rw [if_neg (fun he : k' = "" => hnoempty (he ▸ hmem))]
    exact hmem

/-- **C1** (corrected).  Column resolution is case/space/underscore
(and hyphen) insensitive: any normalised header match resolves to an actual
header, provided no header is the empty string (a found `""` header is
falsy in JS — `keys.find(...) || name` — and falls back to the unresolved
name).  For an argument that resolves to no header of any row,
`compute_column_stats` and `compute_stats_json` return header-enumerating
error mappings and `plot_metric_vs_time` returns its header-enumerating
no-pairs error; but `get_value_counts` **silently returns a success mapping
with empty `value_counts`**, and `get_top_tweets` returns the first rows in
their original order (every comparison ties) with no error — contradicting
the claim's "never silently returns empty results" for those two tools. -/
theorem column_resolution_amended (env : DateEnv) (rows : List Row) (nm dnm : String)
    (hAbs : ∀ r ∈ rows, objGet r (resolveCol rows nm) = none) :
    (∀ (r0 : Row) (rest : List Row) (name : String), name ≠ "" → "" ∉ rowKeys r0 →
        (∃ k ∈ rowKeys r0, normName k = normName name) →
        resolveCol (r0 :: rest) name ∈ rowKeys r0) ∧
      executeTool env "compute_column_stats" { column := nm } (some rows) =
        .error ("No numeric values found in column \"" ++ resolveCol rows nm ++
          "\". Available columns: " ++ joinHeaders (availableHeadersOf rows)) ∧
      executeTool env "compute_stats_json" { field := nm } (some rows) =
        .error ("No numeric values in field \"" ++ resolveCol rows nm ++ "\". Available: " ++
          joinHeaders (availableHeadersOf rows)) ∧
      (rows ≠ [] →
        executeTool env "plot_metric_vs_time" { metric_column := nm, date_column := dnm }
            (some rows) =
          .error ("No valid date+metric pairs. Check columns \"" ++ resolveCol rows nm ++
            "\" and \"" ++ resolveCol rows dnm ++ "\". Available: " ++
            joinHeaders (availableHeadersOf rows))) ∧
      executeTool env "get_value_counts" { column := nm } (some rows) =
        .valueCounts (resolveCol rows nm) rows.length [] ∧
      isErrorResult (executeTool env "get_value_counts" { column := nm } (some rows)) = false ∧
      (rows ≠ [] →
        executeTool env "get_top_tweets" { sort_column := nm } (some rows) =
          .topTweets (resolveCol rows nm) "descending (highest first)"
            (rows.take 10).length
            ((rows.take 10).enum.map
              (fun ir => tweetOutOf (findTextCol (availableHeadersOf rows))
                ((availableHeadersOf rows).find? reFavoriteCount)
                ((availableHeadersOf rows).find? reViewCount)
                ((availableHeadersOf rows).contains "engagement") ir.1 ir.2))) := by
  have hvc : executeTool env "get_value_counts" { column := nm } (some rows) =
      .valueCounts (resolveCol rows nm) rows.length [] := by
    show getValueCountsTool rows nm none = _
    unfold getValueCountsTool
    dsimp only
    rw [buildCounts_eq_nil rows (resolveCol rows nm) hAbs]
    rfl
  refine ⟨resolveCol_resolves, ?_, ?_, ?_, hvc, by rw [hvc]; rfl, ?_⟩
  · show computeColumnStatsTool rows nm = _
    unfold computeColumnStatsTool
    dsimp only
    rw [numericValues_eq_nil rows (resolveCol rows nm) hAbs, if_pos rfl]
  · show computeStatsJsonTool rows nm = _
    unfold computeStatsJsonTool
    dsimp only
    rw [numericValues_eq_nil rows (resolveCol rows nm) hAbs, if_pos rfl]
  · intro hne
    show plotMetricVsTimeTool env rows nm dnm = _
    unfold plotMetricVsTimeTool
    rw [if_neg hne]
    dsimp only
    rw [show rows.filterMap (plotRowPoint env (resolveCol rows nm) (resolveCol rows dnm)) =
        [] from by
      rw [List.filterMap_eq_nil_iff]
      intro r hr
      exact plotRowPoint_eq_none env _ _ r (hAbs r hr)]
    rw [if_pos rfl]
  · intro hne
    show getTopTweetsTool rows nm none none = _
    unfold getTopTweetsTool
    dsimp only
    simp only [Option.getD_none]
    rw [jsSortRows_id (rowCmp (resolveCol rows nm) false) rows
      (fun a ha b => rowCmp_eq_zero _ _ a b (hAbs a ha))]
    rw [show jsSlice0 (orTen none) rows = rows.take 10 from by simp [jsSlice0, orTen]]
    rw [if_neg (by
      cases rows with
      | nil => exact absurd rfl hne
      | cons r t => simp)]
    simp

/-- Closed instance of `column_resolution_amended`: `favorite_count`
resolves to the header `Favorite Count`, while the unresolvable `zzz` makes
`compute_column_stats` return the header-enumerating error and
`get_value_counts` the silent empty mapping. -/
theorem column_resolution_amended_witness :
    resolveCol [[("Favorite Count", Cell.str "1")]] "favorite_count" ∈
        rowKeys [("Favorite Count", Cell.str "1")] ∧
      executeTool trivialDateEnv "compute_column_stats" { column := "zzz" }
          (some [[("a", Cell.str "x")]]) =
        .error ("No numeric values found in column \"" ++
          resolveCol [[("a", Cell.str "x")]] "zzz" ++ "\". Available columns: " ++
          joinHeaders (availableHeadersOf [[("a", Cell.str "x")]])) ∧
      executeTool trivialDateEnv "get_value_counts" { column := "zzz" }
          (some [[("a", Cell.str "x")]]) =
        .valueCounts (resolveCol [[("a", Cell.str "x")]] "zzz") 1 [] := by
  have h := column_resolution_amended trivialDateEnv [[("a", Cell.str "x")]] "zzz" "d"
    (by decide)
  exact ⟨h.1 [("Favorite Count", Cell.str "1")] [] "favorite_count" (by decide) (by decide)
      ⟨"Favorite Count", by decide, by decide⟩,
    h.2.1, h.2.2.2.2.1⟩

/-- **C1** counterexample: an unresolvable column makes `get_value_counts`
return a success mapping with empty `value_counts` — an empty result with no
error, which the claim forbids. -/
theorem column_resolution_cex :
    executeTool trivialDateEnv "get_value_counts" { column := "zzz" }
        (some [[("a", Cell.str "x")]]) =
      .valueCounts "zzz" 1 [] ∧
      isErrorResult (ToolResult.valueCounts "zzz" 1 []) = false := by
  exact ⟨by decide, rfl⟩

end ChatApp
